import Mathlib

/-!
Verification development for the exercise recommendation engine of the
slotfit backend (app/services/ai): the rule-based fallback provider
(fallback_provider.py), the remote provider adapters (claude_provider.py,
gemini_provider.py) and the orchestrating service with its cache
(service.py).

Conventions of the shallow embedding:
* Python datetimes are modelled as naive integer timestamps in seconds;
  timedelta.days becomes flooring division by 86400.
* Python str operations are modelled character-wise over the underlying
  character list, matching CPython semantics for the ASCII data involved
  (lower, substring membership, strip, startswith, endswith, slicing).
* Python dicts become association lists; item lookup takes the first
  matching key.  A parameter whose None and empty-dict values behave the
  same in the source is modelled as a plain list, with the empty list
  standing for both.
* The database read that fetches the candidate exercises, and the remote
  transport calls, are external effects; they enter as Except-valued
  inputs.  A raised Python exception is an Except.error value.
* json.loads and datetime.fromisoformat are outside the program text; the
  embedding abstracts them as oracle inputs (a parse function argument,
  and a stored parse result on each string history value).
-/

/-- Python str.lower over the character data (ASCII case mapping). -/
def lowerStr (s : String) : String :=
  String.mk (s.data.map Char.toLower)

/-- Occurrence of one character list inside another, scanning positions
left to right. -/
def infixScan (needle : List Char) : List Char → Bool
  | [] => needle.isEmpty
  | c :: rest => needle.isPrefixOf (c :: rest) || infixScan needle rest

/-- Python substring membership: the text of needle occurs inside hay. -/
def substrOf (needle hay : String) : Bool :=
  infixScan needle.data hay.data

/-- Python case-insensitive substring test: value.lower() in field.lower(). -/
def pyLowerIn (value field : String) : Bool :=
  substrOf (lowerStr value) (lowerStr field)

/-- Characters stripped by Python str.strip(). -/
def pySpace (c : Char) : Bool :=
  c = ' ' || c = '\t' || c = '\n' || c = '\r' || c = '\x0b' || c = '\x0c'

/-- Python str.strip(): remove leading and trailing whitespace. -/
def stripStr (s : String) : String :=
  String.mk (((s.data.dropWhile pySpace).reverse.dropWhile pySpace).reverse)

/-- Python s[n:] on a str: drop the first n characters. -/
def dropStr (s : String) : Nat → String :=
  fun n => String.mk (s.data.drop n)

/-- Python s[:-n] on a str: drop the last n characters. -/
def dropEndStr (s : String) (n : Nat) : String :=
  String.mk (s.data.take (s.data.length - n))

/-- Python s.startswith(p). -/
def startsWithStr (s p : String) : Bool :=
  p.data.isPrefixOf s.data

/-- Python s.endswith(p). -/
def endsWithStr (s p : String) : Bool :=
  p.data.isSuffixOf s.data

/-- An exact rational score value, kept as an unnormalised fraction with a
positive denominator (Python float arithmetic on the small decimal
constants of the recommender is modelled exactly). -/
structure Frac where
  num : Int
  den : Int
deriving DecidableEq

/-- Score addition. -/
def fadd (a b : Frac) : Frac :=
  ⟨a.num * b.den + b.num * a.den, a.den * b.den⟩

/-- Score subtraction. -/
def fsub (a b : Frac) : Frac :=
  ⟨a.num * b.den - b.num * a.den, a.den * b.den⟩

/-- Score multiplication. -/
def fmul (a b : Frac) : Frac :=
  ⟨a.num * b.num, a.den * b.den⟩

/-- Score negation. -/
def fneg (a : Frac) : Frac :=
  ⟨-a.num, a.den⟩

/-- Numeric comparison of scores (valid for positive denominators). -/
def flt (a b : Frac) : Bool :=
  a.num * b.den < b.num * a.den

/-- Numeric order of scores (valid for positive denominators). -/
def fle (a b : Frac) : Bool :=
  a.num * b.den ≤ b.num * a.den

/-- Numeric equality of scores (valid for positive denominators). -/
def feq (a b : Frac) : Bool :=
  a.num * b.den = b.num * a.den

/-- Python max on two scores (the first argument wins ties). -/
def fmax (a b : Frac) : Frac :=
  if flt a b then b else a

/-- Python min on two scores (the first argument wins ties). -/
def fmin (a b : Frac) : Frac :=
  if flt b a then b else a

/-- Embedding of an integer as a score. -/
def fofInt (n : Int) : Frac :=
  ⟨n, 1⟩

/-- An equipment row as seen through the loaded ORM relationship. -/
structure Equipment where
  name : String
deriving DecidableEq

/-- A muscle group row reachable from an exercise; name is nullable. -/
structure MuscleGroupRef where
  id : Nat
  name : Option String
deriving DecidableEq

/-- An Exercise row with the relationships the recommender reads. -/
structure Exercise where
  id : Nat
  name : String
  primary_equipment_id : Option Nat
  secondary_equipment_id : Option Nat
  primary_equipment : Option Equipment
  secondary_equipment : Option Equipment
  muscle_groups : List MuscleGroupRef
  force_type : Option String
  mechanics : Option String
  posture : Option String
  movement_pattern_1 : Option String
  movement_pattern_2 : Option String
  movement_pattern_3 : Option String
  plane_of_motion_1 : Option String
  plane_of_motion_2 : Option String
  plane_of_motion_3 : Option String
  laterality : Option String
deriving DecidableEq

/-- A value of the last_performed history dict: either a datetime (naive
timestamp) or a string together with the outcome of ISO-8601 parsing
(abstracted: none means datetime.fromisoformat would raise). -/
inductive LastValue where
  | dt (t : Int)
  | str (s : String) (parsed : Option Int)
deriving DecidableEq

/-- The user_workout_history dict; each field is present iff the
corresponding key is in the dict. -/
structure WorkoutHistory where
  exercise_frequency : Option (List (Nat × Int))
  last_performed : Option (List (Nat × LastValue))
deriving DecidableEq

/-- One injury restriction dict as consumed by the fallback provider. -/
structure InjuryRestriction where
  injury_name : String
  restriction_type : String
  restriction_value : String
  severity : String
deriving DecidableEq

/-- The movement_patterns dict produced by the service: three count maps. -/
structure MovementPatterns where
  force_type : List (String × Int)
  mechanics : List (String × Int)
  movement_patterns : List (String × Int)
deriving DecidableEq

/-- The factors bag attached to a recommendation by the fallback provider. -/
structure Factors where
  frequency : String
  last_performed : Option String
  progression_opportunity : Bool
  variety_boost : Bool
  weekly_volume_status : String
  movement_balance : Bool
deriving DecidableEq

/-- ExerciseRecommendation from app/services/ai/base.py. -/
structure ExerciseRecommendation where
  exercise_id : Nat
  exercise_name : String
  priority_score : Frac
  reasoning : String
  factors : Factors
deriving DecidableEq

/-- Modelled from the spec: the Exclusion entry shape
(exercise_id, name, reason).  The class NotRecommendedExercise is imported
from app.services.ai.base by the providers and the schema module and its
instances are asserted by the test-suite, but the copy of base.py in the
tree does not contain its definition; the shape follows the spec data
model and the keyword arguments used at every construction site. -/
structure NotRecommendedExercise where
  exercise_id : Nat
  exercise_name : String
  reason : String
deriving DecidableEq

/-- RecommendationResponse from app/services/ai/base.py.  The
not_recommended field is modelled from the spec (ordered Exclusion list):
every provider constructs the response with a not_recommended keyword and
the API tests assert the field is serialised, while the stale copy of
base.py in the tree omits it. -/
structure RecommendationResponse where
  recommendations : List ExerciseRecommendation
  not_recommended : List NotRecommendedExercise
  total_candidates : Nat
  filtered_by_equipment : Nat
  provider : Option String
deriving DecidableEq

/-- Check of one restriction dict against one exercise, as in the body of
the loop of is_restricted_by_injury: a case-insensitive substring match of
restriction_value against the attribute fields selected by
restriction_type.  Fields tested through (p or "") accept null as the
empty string; fields guarded by a truthiness test reject null and empty. -/
def restrictionHit (r : InjuryRestriction) (ex : Exercise) : Bool :=
  if r.restriction_type = "movement_pattern" then
    [ex.movement_pattern_1, ex.movement_pattern_2, ex.movement_pattern_3].any
      (fun p => pyLowerIn r.restriction_value (p.getD ""))
  else if r.restriction_type = "force_type" then
    match ex.force_type with
    | some s => !(s = "") && pyLowerIn r.restriction_value s
    | none => false
  else if r.restriction_type = "posture" then
    match ex.posture with
    | some s => !(s = "") && pyLowerIn r.restriction_value s
    | none => false
  else if r.restriction_type = "plane_of_motion" then
    [ex.plane_of_motion_1, ex.plane_of_motion_2, ex.plane_of_motion_3].any
      (fun p => pyLowerIn r.restriction_value (p.getD ""))
  else if r.restriction_type = "laterality" then
    match ex.laterality with
    | some s => !(s = "") && pyLowerIn r.restriction_value s
    | none => false
  else
    false

/-- is_restricted_by_injury from fallback_provider.py: the reason from the
first matching restriction, none when no restriction matches. -/
def is_restricted_by_injury (ex : Exercise) :
    List InjuryRestriction → Option String
  | [] => none
  | r :: rest =>
    if restrictionHit r ex then some ("May aggravate " ++ r.injury_name)
    else is_restricted_by_injury ex rest

/-- Step 3 of the fallback pipeline: split the candidates into injury
exclusions (in candidate order, with the matching reason) and the
survivors (in candidate order). -/
def injurySplit (restr : List InjuryRestriction) :
    List Exercise → List NotRecommendedExercise × List Exercise
  | [] => ([], [])
  | ex :: rest =>
    let acc := injurySplit restr rest
    match is_restricted_by_injury ex restr with
    | some reason => (⟨ex.id, ex.name, reason⟩ :: acc.1, acc.2)
    | none => (acc.1, ex :: acc.2)

/-- The equipment availability test of step 4: bodyweight (no primary
equipment) always passes; an empty available list passes everything;
otherwise the primary or secondary equipment id must be available. -/
def hasAvailableEquipment (ex : Exercise) (avail : List Nat) : Bool :=
  match ex.primary_equipment_id with
  | none => true
  | some p =>
    match avail with
    | [] => true
    | _ :: _ =>
      avail.contains p ||
        (match ex.secondary_equipment_id with
         | some s => avail.contains s
         | none => false)

/-- The equipment name used in an equipment exclusion reason: the primary
equipment relationship if loaded, else the secondary, else a placeholder. -/
def equipmentName (ex : Exercise) : String :=
  match ex.primary_equipment with
  | some e => e.name
  | none =>
    match ex.secondary_equipment with
    | some e => e.name
    | none => "Unknown Equipment"

/-- Step 4 of the fallback pipeline: equipment exclusions (in candidate
order), surviving candidates (in candidate order) and the count of
candidates removed by the equipment filter. -/
def equipmentSplit (avail : List Nat) :
    List Exercise → List NotRecommendedExercise × List Exercise × Nat
  | [] => ([], [], 0)
  | ex :: rest =>
    let acc := equipmentSplit avail rest
    if hasAvailableEquipment ex avail then
      (acc.1, ex :: acc.2.1, acc.2.2)
    else
      (⟨ex.id, ex.name, "Equipment not available: " ++ equipmentName ex⟩ :: acc.1,
       acc.2.1, acc.2.2 + 1)

/-- Display name of a muscle group in a volume exclusion reason: the name
when truthy, otherwise a placeholder built from the id. -/
def mgDisplayName (mg : MuscleGroupRef) : String :=
  match mg.name with
  | some s => if s = "" then "Muscle Group " ++ toString mg.id else s
  | none => "Muscle Group " ++ toString mg.id

/-- Inner loop of step 5: scan the muscle groups of the exercise in order
and stop at the first one present in the snapshot with more than 20 sets. -/
def volumeExclFind (wv : List (Nat × Int)) (ex : Exercise) :
    List MuscleGroupRef → Option NotRecommendedExercise
  | [] => none
  | mg :: rest =>
    match wv.lookup mg.id with
    | some sets =>
      if sets > 20 then
        some ⟨ex.id, ex.name,
          "Weekly volume exceeded for " ++ mgDisplayName mg ++
            " (" ++ toString sets ++ " sets)"⟩
      else volumeExclFind wv ex rest
    | none => volumeExclFind wv ex rest

/-- Step 5 of the fallback pipeline for one surviving candidate (the
recommended-id set is still empty at this point in the source, so the
membership guard there is vacuous). -/
def volumeExclusion (wv : List (Nat × Int)) (ex : Exercise) :
    Option NotRecommendedExercise :=
  if wv = [] then none
  else if ex.muscle_groups = [] then none
  else volumeExclFind wv ex ex.muscle_groups

/-- The timestamp a history value contributes to the recency check: a
datetime directly, a string only when ISO parsing succeeds. -/
def parsedTimestamp : LastValue → Option Int
  | .dt t => some t
  | .str _ p => p

/-- Python str(n) for the signed whole-day count. -/
def daysAgoText (d : Int) : String :=
  "Performed " ++ toString d ++ " day" ++ (if d ≠ 1 then "s" else "") ++
    " ago - insufficient recovery"

/-- Step 6 of the fallback pipeline for one surviving candidate: an
insufficient-recovery exclusion exactly when the history has a
last_performed entry for the candidate that yields a timestamp whose
whole-day distance from now (floored, as timedelta.days) is below 2.
A string value that fails ISO parsing is skipped silently. -/
def recencyExclusion (hist : Option WorkoutHistory) (now : Int)
    (ex : Exercise) : Option NotRecommendedExercise :=
  match hist with
  | none => none
  | some w =>
    match w.last_performed with
    | none => none
    | some lp =>
      match lp.lookup ex.id with
      | none => none
      | some v =>
        match parsedTimestamp v with
        | none => none
        | some t =>
          if (now - t).fdiv 86400 < 2 then
            some ⟨ex.id, ex.name, daysAgoText ((now - t).fdiv 86400)⟩
          else none

/-- Reason-type key of step 7: the text before the first colon when a
colon occurs, otherwise the first space-separated word. -/
def reasonTypeOf (reason : String) : String :=
  if substrOf ":" reason then
    String.mk (reason.data.takeWhile (fun c => c != ':'))
  else
    String.mk (reason.data.takeWhile (fun c => c != ' '))

/-- Grouping of step 7: an insertion-ordered association list from
reason type to the entries carrying it, in discovery order. -/
def groupByReasonType (entries : List NotRecommendedExercise) :
    List (String × List NotRecommendedExercise) :=
  entries.foldl
    (fun acc e =>
      let rt := reasonTypeOf e.reason
      if acc.any (fun p => p.1 = rt) then
        acc.map (fun p => if p.1 = rt then (p.1, p.2 ++ [e]) else p)
      else acc ++ [(rt, [e])])
    []

/-- Selection loop of step 7: up to 3 entries per reason type, stopping
once 10 entries are collected. -/
def diverseSelect :
    List (String × List NotRecommendedExercise) →
      List NotRecommendedExercise → List NotRecommendedExercise
  | [], acc => acc
  | (_, es) :: rest, acc =>
    let acc1 := acc ++ es.take 3
    if acc1.length ≥ 10 then acc1 else diverseSelect rest acc1

/-- get_weekly_volume_status from fallback_provider.py: maximum sets over
the muscle groups of the exercise, bucketed. -/
def get_weekly_volume_status (wv : List (Nat × Int)) (ex : Exercise) :
    String :=
  if wv = [] then "low"
  else if ex.muscle_groups = [] then "low"
  else
    let max_sets := ex.muscle_groups.foldl
      (fun m mg =>
        match wv.lookup mg.id with
        | some sets => max m sets
        | none => m) 0
    if max_sets > 20 then "high"
    else if max_sets > 10 then "moderate"
    else "low"

/-- Loop of get_volume_penalty: return at the first muscle group found in
the snapshot with more than 10 sets. -/
def volPenaltyLoop (wv : List (Nat × Int)) :
    List MuscleGroupRef → Frac
  | [] => ⟨0, 1⟩
  | mg :: rest =>
    match wv.lookup mg.id with
    | some sets =>
      if sets > 20 then ⟨5, 10⟩
      else if sets > 10 then ⟨2, 10⟩
      else volPenaltyLoop wv rest
    | none => volPenaltyLoop wv rest

/-- get_volume_penalty from fallback_provider.py. -/
def get_volume_penalty (wv : List (Nat × Int)) (ex : Exercise) : Frac :=
  if wv = [] then ⟨0, 1⟩
  else if ex.muscle_groups = [] then ⟨0, 1⟩
  else volPenaltyLoop wv ex.muscle_groups

/-- get_movement_balance_boost from fallback_provider.py. -/
def get_movement_balance_boost (mp : Option MovementPatterns)
    (ex : Exercise) : Frac :=
  match mp with
  | none => ⟨0, 1⟩
  | some m =>
    let push := (m.force_type.lookup "Push").getD 0
    let pull := (m.force_type.lookup "Pull").getD 0
    let b1 : Frac :=
      match ex.force_type with
      | some f =>
        if f = "" then ⟨0, 1⟩
        else
          let ef := stripStr f
          if push > pull + 1 && ef = "Pull" then ⟨15, 100⟩
          else if pull > push + 1 && ef = "Push" then ⟨15, 100⟩
          else ⟨0, 1⟩
      | none => ⟨0, 1⟩
    let compound := (m.mechanics.lookup "Compound").getD 0
    let isolation := (m.mechanics.lookup "Isolation").getD 0
    let b2 : Frac :=
      match ex.mechanics with
      | some g =>
        if g = "" then ⟨0, 1⟩
        else
          let eg := stripStr g
          if compound > isolation + 1 && eg = "Isolation" then ⟨15, 100⟩
          else if isolation > compound + 1 && eg = "Compound" then ⟨15, 100⟩
          else ⟨0, 1⟩
      | none => ⟨0, 1⟩
    fmin ⟨3, 10⟩ (fadd b1 b2)

/-- Frequency of an exercise in the history, 0 when the key or the dict is
absent. -/
def historyFrequency (hist : Option WorkoutHistory) (exId : Nat) : Int :=
  match hist with
  | none => 0
  | some w =>
    match w.exercise_frequency with
    | none => 0
    | some m => (m.lookup exId).getD 0

/-- sort_key from fallback_provider.py: (volume_penalty, -movement_boost,
frequency), lower is better. -/
def sort_key (wv : List (Nat × Int)) (mp : Option MovementPatterns)
    (hist : Option WorkoutHistory) (ex : Exercise) : Frac × Frac × Int :=
  (get_volume_penalty wv ex, fneg (get_movement_balance_boost mp ex),
    historyFrequency hist ex.id)

/-- Lexicographic comparison of sort keys, as Python tuple comparison
(numeric comparison in each component). -/
def keyLe (a b : Frac × Frac × Int) : Bool :=
  flt a.1 b.1 ||
    (feq a.1 b.1 &&
      (flt a.2.1 b.2.1 || (feq a.2.1 b.2.1 && a.2.2 ≤ b.2.2)))

/-- Insertion of an element into a sorted list, after every element that
compares at-most to it; with a total comparison this keeps elements with
equal keys in insertion order. -/
def insertSorted (le : α → α → Bool) (x : α) : List α → List α
  | [] => [x]
  | y :: ys => if le y x then y :: insertSorted le x ys else x :: y :: ys

/-- A stable sort (left-to-right insertion); Python sorted is stable, and
stable sorts under a total preorder agree, so this embeds sorted(...). -/
def stableSort (le : α → α → Bool) (l : List α) : List α :=
  l.foldl (fun acc x => insertSorted le x acc) []

/-- The stable sort of step 8 over the surviving candidates. -/
def sortCandidates (wv : List (Nat × Int)) (mp : Option MovementPatterns)
    (hist : Option WorkoutHistory) (exs : List Exercise) : List Exercise :=
  stableSort (fun a b => keyLe (sort_key wv mp hist a) (sort_key wv mp hist b)) exs

/-- The raw last_performed value fetched for the factor bag (before any
parsing; the recommendation loop reads the dict value directly). -/
def rawLastValue (hist : Option WorkoutHistory) (exId : Nat) :
    Option LastValue :=
  match hist with
  | none => none
  | some w =>
    match w.last_performed with
    | none => none
    | some lp => lp.lookup exId

/-- Abstract rendering of datetime.isoformat on the naive-timestamp model. -/
def isoformat (t : Int) : String :=
  toString t

/-- Construction of one recommendation at post-sort position i.  The
factor rendering calls isoformat on the raw history value; on a truthy
(nonempty) string value that attribute access raises, which the embedding
surfaces as an error. -/
def buildRec (hist : Option WorkoutHistory) (wv : List (Nat × Int))
    (mp : Option MovementPatterns) (i : Nat) (ex : Exercise) :
    Except String ExerciseRecommendation :=
  let base0 : Frac := fsub (fofInt 1) (fmul (fofInt (i : Int)) ⟨1, 10⟩)
  let base : Frac :=
    match hist with
    | none => base0
    | some w =>
      match w.exercise_frequency with
      | none => base0
      | some m =>
        fmax (fofInt 0)
          (fsub (fofInt 1) (fmul (fofInt ((m.lookup ex.id).getD 0)) ⟨1, 10⟩))
  let volume_penalty := get_volume_penalty wv ex
  let movement_boost := get_movement_balance_boost mp ex
  let priority_score :=
    fadd (fmul base (fsub (fofInt 1) volume_penalty)) movement_boost
  let lpText : Except String (Option String) :=
    match rawLastValue hist ex.id with
    | none => .ok none
    | some (.dt t) => .ok (some (isoformat t))
    | some (.str s _) =>
      if s = "" then .ok none
      else .error "AttributeError: str object has no attribute isoformat"
  match lpText with
  | .error e => .error e
  | .ok lp =>
    .ok
      { exercise_id := ex.id
        exercise_name := ex.name
        priority_score := fmax (fofInt 0) (fmin (fofInt 1) priority_score)
        reasoning := "Rule-based recommendation based on muscle group targeting, equipment availability, and weekly volume management"
        factors :=
          { frequency := match hist with | none => "low" | some _ => "medium"
            last_performed := lp
            progression_opportunity := false
            variety_boost := true
            weekly_volume_status := get_weekly_volume_status wv ex
            movement_balance := flt (fofInt 0) (get_movement_balance_boost mp ex) } }

/-- The enumerate loop over the truncated sorted candidates. -/
def buildRecs (hist : Option WorkoutHistory) (wv : List (Nat × Int))
    (mp : Option MovementPatterns) :
    Nat → List Exercise → Except String (List ExerciseRecommendation)
  | _, [] => .ok []
  | i, ex :: rest =>
    match buildRec hist wv mp i ex with
    | .error e => .error e
    | .ok r =>
      match buildRecs hist wv mp (i + 1) rest with
      | .error e => .error e
      | .ok rs => .ok (r :: rs)

/-- Candidates surviving the injury filter followed by the equipment
filter, in candidate order. -/
def survivors (restr : List InjuryRestriction) (avail : List Nat)
    (exs : List Exercise) : List Exercise :=
  (equipmentSplit avail (injurySplit restr exs).2).2.1

/-- Count of candidates removed by the equipment filter. -/
def filteredByEquipmentCount (restr : List InjuryRestriction)
    (avail : List Nat) (exs : List Exercise) : Nat :=
  (equipmentSplit avail (injurySplit restr exs).2).2.2

/-- Merged exclusion list before the diversity cap: injury, equipment,
volume then recency exclusions, each group in candidate order. -/
def rawExclusions (restr : List InjuryRestriction) (avail : List Nat)
    (wv : List (Nat × Int)) (hist : Option WorkoutHistory) (now : Int)
    (exs : List Exercise) : List NotRecommendedExercise :=
  let inj := injurySplit restr exs
  let eqp := equipmentSplit avail inj.2
  inj.1 ++ eqp.1 ++ eqp.2.1.filterMap (volumeExclusion wv) ++
    eqp.2.1.filterMap (recencyExclusion hist now)

/-- Step 7 applied to the merged exclusions: diversity selection then the
hard cap of 10 entries. -/
def cappedExclusions (restr : List InjuryRestriction) (avail : List Nat)
    (wv : List (Nat × Int)) (hist : Option WorkoutHistory) (now : Int)
    (exs : List Exercise) : List NotRecommendedExercise :=
  (diverseSelect (groupByReasonType (rawExclusions restr avail wv hist now exs)) []).take 10

/-- Body of FallbackProvider.get_exercise_recommendations once the
candidate query has produced the list of exercises. -/
def fallbackBody (exs : List Exercise) (avail : List Nat)
    (hist : Option WorkoutHistory) (wv : List (Nat × Int))
    (mp : Option MovementPatterns) (restr : List InjuryRestriction)
    (limit : Nat) (now : Int) : Except String RecommendationResponse :=
  match buildRecs hist wv mp 0
      ((sortCandidates wv mp hist (survivors restr avail exs)).take limit) with
  | .error e => .error e
  | .ok recs =>
    .ok
      { recommendations := recs
        not_recommended :=
          (cappedExclusions restr avail wv hist now exs).filter
            (fun e => !((recs.map (fun r => r.exercise_id)).contains e.exercise_id))
        total_candidates := exs.length
        filtered_by_equipment := filteredByEquipmentCount restr avail exs
        provider := some "fallback" }

/-- FallbackProvider.get_exercise_recommendations: the candidate query is
an external read entering as an Except value; a failure of that read
propagates (there is no handler in the source). -/
def get_exercise_recommendations (repo : Except String (List Exercise))
    (avail : List Nat) (hist : Option WorkoutHistory)
    (wv : List (Nat × Int)) (mp : Option MovementPatterns)
    (restr : List InjuryRestriction) (limit : Nat) (now : Int) :
    Except String RecommendationResponse :=
  match repo with
  | .error e => .error e
  | .ok exs => fallbackBody exs avail hist wv mp restr limit now

/-- Code-fence stripping of the remote provider parse routines: strip,
drop a leading triple-backtick-json or triple-backtick marker, drop a
trailing triple-backtick marker, strip again. -/
def stripCodeFence (response_text : String) : String :=
  let text := stripStr response_text
  let text := if startsWithStr text "```json" then dropStr text 7 else text
  let text := if startsWithStr text "```" then dropStr text 3 else text
  let text := if endsWithStr text "```" then dropEndStr text 3 else text
  stripStr text

/-- Abstraction of the JSON object a remote reply parses into, after the
per-recommendation factor defaulting: the recommendations and
not_recommended arrays and the two optional integer fields (absent when
the key is missing from the object). -/
structure ParsedReply where
  recommendations : List ExerciseRecommendation
  not_recommended : List NotRecommendedExercise
  total_candidates : Option Nat
  filtered_by_equipment : Option Nat
deriving DecidableEq

/-- ClaudeProvider._parse_response: strip fences, parse (the oracle
jsonParse stands for json.loads plus field extraction; none is a
JSONDecodeError), build the response with the lists truncated, then raise
when the result is empty. -/
def claude_parse_response (jsonParse : String → Option ParsedReply)
    (response_text : String) (limit : Nat) :
    Except String RecommendationResponse :=
  match jsonParse (stripCodeFence response_text) with
  | none => .error "JSONDecodeError"
  | some data =>
    if data.total_candidates.getD data.recommendations.length = 0 ||
        (data.recommendations.take limit).length = 0 then
      .error "Claude API returned empty recommendations"
    else
      .ok
        { recommendations := data.recommendations.take limit
          not_recommended := data.not_recommended.take 10
          total_candidates := data.total_candidates.getD data.recommendations.length
          filtered_by_equipment := data.filtered_by_equipment.getD data.recommendations.length
          provider := some "claude" }

/-- ClaudeProvider.get_exercise_recommendations: raise when unavailable,
raise when the client was not initialised, propagate a transport failure,
otherwise parse the reply text. -/
def claude_get_exercise_recommendations (available clientOk : Bool)
    (transport : Except String String)
    (jsonParse : String → Option ParsedReply) (limit : Nat) :
    Except String RecommendationResponse :=
  if !available then .error "Claude API not available"
  else if !clientOk then .error "Anthropic client not initialized"
  else
    match transport with
    | .error e => .error e
    | .ok text => claude_parse_response jsonParse text limit

/-- GeminiProvider._parse_response: as the Claude one but without a
not_recommended array and with provider gemini. -/
def gemini_parse_response (jsonParse : String → Option ParsedReply)
    (response_text : String) (limit : Nat) :
    Except String RecommendationResponse :=
  match jsonParse (stripCodeFence response_text) with
  | none => .error "JSONDecodeError"
  | some data =>
    if data.total_candidates.getD data.recommendations.length = 0 ||
        (data.recommendations.take limit).length = 0 then
      .error "Gemini API returned empty recommendations"
    else
      .ok
        { recommendations := data.recommendations.take limit
          not_recommended := []
          total_candidates := data.total_candidates.getD data.recommendations.length
          filtered_by_equipment := data.filtered_by_equipment.getD data.recommendations.length
          provider := some "gemini" }

/-- GeminiProvider.get_exercise_recommendations: availability gate, client
gate, the model retry loop collapsed to its net transport outcome, then
parsing. -/
def gemini_get_exercise_recommendations (available clientOk : Bool)
    (transport : Except String String)
    (jsonParse : String → Option ParsedReply) (limit : Nat) :
    Except String RecommendationResponse :=
  if !available then .error "Gemini API not available"
  else if !clientOk then .error "Gemini client not initialized"
  else
    match transport with
    | .error e => .error e
    | .ok text => gemini_parse_response jsonParse text limit

/-- Environment of one orchestrator call: configuration and availability
flags, the outcomes of the two remote invocations (each invocation of the
same provider within one call reads the same outcome), and the context
reads backing the rule-based step. -/
structure Env where
  ai_provider_is_claude : Bool
  claude_available : Bool
  gemini_available : Bool
  claude_outcome : Except String RecommendationResponse
  gemini_outcome : Except String RecommendationResponse
  repo : Except String (List Exercise)
  weekly_volume : List (Nat × Int)
  movement_patterns : MovementPatterns

/-- The provider chosen by AIRecommendationService._get_provider. -/
inductive Selected where
  | claude
  | gemini
  | fallback
deriving DecidableEq

/-- _get_provider: Claude when configured and available, else Gemini when
available, else the rule-based fallback. -/
def selectProvider (env : Env) : Selected :=
  if env.ai_provider_is_claude && env.claude_available then .claude
  else if env.gemini_available then .gemini
  else .fallback

/-- The fallback invocation made inside the try block of the service
(weekly volume and movement patterns are passed; injury restrictions are
not). -/
def fbTry (env : Env) (eqIds : List Nat) (hist : Option WorkoutHistory)
    (limit : Nat) (now : Int) : Except String RecommendationResponse :=
  get_exercise_recommendations env.repo eqIds hist env.weekly_volume
    (some env.movement_patterns) [] limit now

/-- The fallback invocation made inside the except block of the service
(movement patterns are omitted there). -/
def fbExc (env : Env) (eqIds : List Nat) (hist : Option WorkoutHistory)
    (limit : Nat) (now : Int) : Except String RecommendationResponse :=
  get_exercise_recommendations env.repo eqIds hist env.weekly_volume
    none [] limit now

/-- Outcome of the initially selected provider invocation. -/
def initialOutcome (env : Env) (eqIds : List Nat)
    (hist : Option WorkoutHistory) (limit : Nat) (now : Int) :
    Except String RecommendationResponse :=
  match selectProvider env with
  | .claude => env.claude_outcome
  | .gemini => env.gemini_outcome
  | .fallback => fbTry env eqIds hist limit now

/-- The try block of AIRecommendationService.get_recommendations after the
initial invocation: on an empty non-fallback result, retry through Gemini
(when the initial provider was Claude and Gemini is available) and then
the rule-based fallback.  An error value means an exception escaped the
try block; the Nat counts provider invocations. -/
def tryBlock (env : Env) (eqIds : List Nat) (hist : Option WorkoutHistory)
    (limit : Nat) (now : Int) :
    Except String RecommendationResponse × Nat :=
  match initialOutcome env eqIds hist limit now with
  | .error e => (.error e, 1)
  | .ok resp =>
    if resp.total_candidates = 0 && !(selectProvider env = .fallback) then
      if selectProvider env = .claude && env.gemini_available then
        match env.gemini_outcome with
        | .error e => (.error e, 2)
        | .ok g =>
          if g.total_candidates = 0 then (fbTry env eqIds hist limit now, 3)
          else (.ok g, 2)
      else (fbTry env eqIds hist limit now, 2)
    else (.ok resp, 1)

/-- The except block of the service: when the initial provider was Claude
and Gemini is available, try Gemini (its own exception is swallowed);
then, when no usable response exists, run the rule-based fallback, whose
exception now propagates to the caller. -/
def exceptBlock (env : Env) (eqIds : List Nat)
    (hist : Option WorkoutHistory) (limit : Nat) (now : Int) :
    Except String RecommendationResponse × Nat :=
  if selectProvider env = .claude && env.gemini_available then
    match env.gemini_outcome with
    | .ok g =>
      if g.total_candidates = 0 then (fbExc env eqIds hist limit now, 2)
      else (.ok g, 1)
    | .error _ => (fbExc env eqIds hist limit now, 2)
  else (fbExc env eqIds hist limit now, 1)

/-- The provider chain of one service call: the try block, falling into
the except block when an exception escapes it. -/
def chainResult (env : Env) (eqIds : List Nat)
    (hist : Option WorkoutHistory) (limit : Nat) (now : Int) :
    Except String RecommendationResponse × Nat :=
  match tryBlock env eqIds hist limit now with
  | (.ok r, n) => (.ok r, n)
  | (.error _, n) =>
    let h := exceptBlock env eqIds hist limit now
    (h.1, n + h.2)

/-- The in-memory cache of the service: key to (response, creation time). -/
structure CacheState where
  entries : List (String × RecommendationResponse × Int)
deriving Inhabited

/-- Dict lookup in the cache. -/
def cacheLookup (st : CacheState) (k : String) :
    Option (RecommendationResponse × Int) :=
  (st.entries.find? (fun e => e.1 = k)).map (fun e => e.2)

/-- Dict deletion of an expired entry. -/
def cacheErase (st : CacheState) (k : String) : CacheState :=
  ⟨st.entries.filter (fun e => !(e.1 = k))⟩

/-- Dict assignment: unconditional overwrite. -/
def cachePut (st : CacheState) (k : String)
    (v : RecommendationResponse × Int) : CacheState :=
  ⟨(k, v) :: (cacheErase st k).entries⟩

/-- The cache TTL of one hour, in seconds. -/
def cacheTTL : Int := 3600

/-- Python str of a Nat. -/
def natText (n : Nat) : String :=
  toString n

/-- Comma-joined rendering of a list of ids. -/
def joinComma (l : List Nat) : String :=
  String.mk (List.intercalate ",".data (l.map (fun n => (natText n).data)))

/-- _get_cache_key: sorted muscle group ids and sorted equipment ids. -/
def cache_key (mgIds eqIds : List Nat) : String :=
  "mg:" ++ joinComma (stableSort (fun a b => a ≤ b) mgIds) ++ ":eq:" ++
    joinComma (stableSort (fun a b => a ≤ b) eqIds)

/-- The cache-miss path of AIRecommendationService.get_recommendations:
run the provider chain and, when a response was produced and caching was
requested, write it to the cache. -/
def serviceMiss (env : Env) (st1 : CacheState) (now : Int)
    (mgIds eqIds : List Nat) (hist : Option WorkoutHistory) (limit : Nat)
    (use_cache : Bool) :
    Except String RecommendationResponse × CacheState × Nat :=
  match chainResult env eqIds hist limit now with
  | (.ok r, n) =>
    (.ok r,
      (if use_cache then cachePut st1 (cache_key mgIds eqIds) (r, now) else st1),
      n)
  | (.error e, n) => (.error e, st1, n)

/-- AIRecommendationService.get_recommendations: cache get (returning a
fresh entry, deleting a stale one), then the provider chain with a cache
put on success.  The result is the returned or raised value, the cache
state after the call, and the number of provider invocations. -/
def service_get_recommendations (env : Env) (st : CacheState) (now : Int)
    (mgIds eqIds : List Nat) (hist : Option WorkoutHistory) (limit : Nat)
    (use_cache : Bool) :
    Except String RecommendationResponse × CacheState × Nat :=
  match (if use_cache then cacheLookup st (cache_key mgIds eqIds) else none) with
  | some p =>
    if now - p.2 < cacheTTL then (.ok p.1, st, 0)
    else
      serviceMiss env (cacheErase st (cache_key mgIds eqIds)) now mgIds eqIds
        hist limit use_cache
  | none => serviceMiss env st now mgIds eqIds hist limit use_cache

/-- A history is safe for the factor rendering when every string value of
its last_performed map is empty (falsy), so the isoformat attribute access
is never reached. -/
def histSafe (h : Option WorkoutHistory) : Prop :=
  ∀ (w : WorkoutHistory) (lp : List (Nat × LastValue)) (id : Nat)
    (s : String) (p : Option Int),
    h = some w → w.last_performed = some lp →
    lp.lookup id = some (.str s p) → s = ""

/-- A template exercise with all-empty attributes, for concrete inputs. -/
def baseExercise : Exercise :=
  { id := 0, name := "", primary_equipment_id := none,
    secondary_equipment_id := none, primary_equipment := none,
    secondary_equipment := none, muscle_groups := [],
    force_type := none, mechanics := none, posture := none,
    movement_pattern_1 := none, movement_pattern_2 := none,
    movement_pattern_3 := none, plane_of_motion_1 := none,
    plane_of_motion_2 := none, plane_of_motion_3 := none,
    laterality := none }

/-- Follows the words of the claim for the volume penalty: take the
maximum total_sets across all muscle groups of the candidate present in
the snapshot, then 0.5 above 20, 0.2 above 10, else 0. -/
def specVolumePenalty (wv : List (Nat × Int)) (ex : Exercise) : Frac :=
  let m := ex.muscle_groups.foldl
    (fun acc mg =>
      match wv.lookup mg.id with
      | some s => max acc s
      | none => acc) 0
  if m > 20 then ⟨5, 10⟩ else if m > 10 then ⟨2, 10⟩ else ⟨0, 1⟩

/-- The first muscle group of the candidate, in list order, whose
snapshot entry exceeds 10 sets, and its set count. -/
def firstHighSets (wv : List (Nat × Int)) : List MuscleGroupRef → Option Int
  | [] => none
  | mg :: rest =>
    match wv.lookup mg.id with
    | some s => if s > 10 then some s else firstHighSets wv rest
    | none => firstHighSets wv rest

/-- C4 counterexample data: the first listed muscle group sits at 15 sets
while the second sits at 25. -/
def wvC4 : List (Nat × Int) := [(1, 15), (2, 25)]

/-- C4 counterexample candidate: associated to both snapshot groups. -/
def exC4 : Exercise :=
  { baseExercise with
    id := 3
    name := "Incline Press"
    muscle_groups := [⟨1, some "Chest"⟩, ⟨2, some "Shoulders"⟩] }

/-- C10 counterexample history: the only candidate has a last_performed
string value that fails ISO parsing. -/
def histC10 : WorkoutHistory :=
  { exercise_frequency := none
    last_performed := some [(9, LastValue.str "not-a-date" none)] }

/-- C10 counterexample candidate. -/
def exR : Exercise :=
  { baseExercise with
    id := 9
    name := "Row" }

/-- C1 counterexample environment: the candidate repository read raises
and no remote provider is configured or available. -/
def env0 : Env :=
  { ai_provider_is_claude := false
    claude_available := false
    gemini_available := false
    claude_outcome := .error "unavailable"
    gemini_outcome := .error "unavailable"
    repo := .error "database unavailable"
    weekly_volume := []
    movement_patterns := ⟨[], [], []⟩ }

/-- Demo candidate: a bodyweight chest exercise. -/
def exA : Exercise :=
  { baseExercise with
    id := 1
    name := "Push Up"
    muscle_groups := [⟨10, some "Chest"⟩]
    force_type := some "Push"
    mechanics := some "Compound"
    movement_pattern_1 := some "Horizontal Push" }

/-- Demo candidate: a barbell chest exercise (equipment id 5). -/
def exB : Exercise :=
  { baseExercise with
    id := 2
    name := "Bench Press"
    primary_equipment_id := some 5
    primary_equipment := some ⟨"Barbell"⟩
    muscle_groups := [⟨10, some "Chest"⟩]
    force_type := some "Push"
    mechanics := some "Compound"
    movement_pattern_1 := some "Horizontal Push" }

/-- Fallback response of the demo run: chest scope, only equipment 7
available, no history or context. -/
def respDemo : RecommendationResponse :=
  (get_exercise_recommendations (.ok [exA, exB]) [7] none [] none [] 5 0).toOption.getD
    ⟨[], [], 0, 0, none⟩

/-- Demo environment: both remotes unconfigured, working repository. -/
def envOk : Env :=
  { ai_provider_is_claude := false
    claude_available := false
    gemini_available := false
    claude_outcome := .error "unavailable"
    gemini_outcome := .error "unavailable"
    repo := .ok [exA, exB]
    weekly_volume := []
    movement_patterns := ⟨[], [], []⟩ }

/-- Demo injury restriction of scenario B. -/
def injRestr : InjuryRestriction :=
  ⟨"tennis elbow", "movement_pattern", "Overhead Press", "mild"⟩

/-- Demo candidate whose only movement pattern the restriction matches. -/
def exOHP : Exercise :=
  { baseExercise with
    id := 11
    name := "Overhead Press"
    movement_pattern_1 := some "Overhead Press" }

/-- Demo history carrying a datetime value for exercise 1. -/
def histDt : WorkoutHistory :=
  { exercise_frequency := none
    last_performed := some [(1, LastValue.dt 0)] }

/-- Demo parse oracle: only the stripped text X parses. -/
def jpDemo : String → Option ParsedReply :=
  fun s =>
    if s = "X" then
      some ⟨[⟨21, "Cable Fly", ⟨9, 10⟩, "good fit",
        ⟨"low", none, false, true, "low", false⟩⟩], [], some 1, some 0⟩
    else none

/-- Claude adapter response of the demo parse. -/
def cpResp : RecommendationResponse :=
  (claude_get_exercise_recommendations true true (.ok "```json X```") jpDemo 2).toOption.getD
    ⟨[], [], 0, 0, none⟩

/-- Gemini adapter response of the demo parse. -/
def gpResp : RecommendationResponse :=
  (gemini_get_exercise_recommendations true true (.ok "```json X```") jpDemo 2).toOption.getD
    ⟨[], [], 0, 0, none⟩

/-- First demo service call (time 0, cold cache). -/
def svc1 : Except String RecommendationResponse × CacheState × Nat :=
  service_get_recommendations envOk ⟨[]⟩ 0 [1] [2] none 5 true

/-- Response of the first demo service call. -/
def svcResp : RecommendationResponse :=
  svc1.1.toOption.getD ⟨[], [], 0, 0, none⟩

/-- Demo parse oracle whose reply lists the same exercise id both as a
recommendation and as an exclusion, as a remote reply may. -/
def jpOverlap : String → Option ParsedReply :=
  fun s =>
    if s = "Y" then
      some ⟨[⟨21, "Cable Fly", ⟨9, 10⟩, "good fit",
        ⟨"low", none, false, true, "low", false⟩⟩],
        [⟨21, "Cable Fly", "Weekly volume exceeded for Chest (22 sets)"⟩],
        some 2, some 0⟩
    else none

/-- Claude adapter response of the overlapping demo reply. -/
def overlapResp : RecommendationResponse :=
  (claude_get_exercise_recommendations true true (.ok "Y") jpOverlap 5).toOption.getD
    ⟨[], [], 0, 0, none⟩

/-- Insertion grows the length by one. -/
theorem length_insertSorted (le : α → α → Bool) (x : α) :
    ∀ l : List α, (insertSorted le x l).length = l.length + 1 := by
  intro l
  induction l with
  | nil => rfl
  | cons y ys ih =>
    unfold insertSorted
    by_cases h : le y x = true
    · simp [h, ih]
    · simp [h]

/-- The stable sort preserves length. -/
theorem length_stableSort (le : α → α → Bool) (l : List α) :
    (stableSort le l).length = l.length := by
  suffices h : ∀ (l : List α) (acc : List α),
      (l.foldl (fun acc x => insertSorted le x acc) acc).length =
        acc.length + l.length by
    simpa using h l []
  intro l
  induction l with
  | nil => simp
  | cons x xs ih =>
    intro acc
    simp only [List.foldl_cons]
    rw [ih, length_insertSorted]
    simp [List.length_cons]
    omega

/-- Insertion preserves the multiset of elements. -/
theorem mem_insertSorted (le : α → α → Bool) (x : α) :
    ∀ (l : List α) (y : α), y ∈ insertSorted le x l ↔ y = x ∨ y ∈ l := by
  intro l
  induction l with
  | nil => simp [insertSorted]
  | cons z zs ih =>
    intro y
    unfold insertSorted
    by_cases h : le z x = true
    · simp [h, ih]
      try tauto
    · simp [h]
      try tauto

/-- Membership in the stable sort is membership in the input. -/
theorem mem_stableSort (le : α → α → Bool) (l : List α) (y : α) :
    y ∈ stableSort le l ↔ y ∈ l := by
  suffices h : ∀ (l acc : List α) (y : α),
      (y ∈ l.foldl (fun acc x => insertSorted le x acc) acc) ↔
        (y ∈ acc ∨ y ∈ l) by
    have := h l [] y
    simpa [stableSort] using this
  intro l
  induction l with
  | nil => simp
  | cons x xs ih =>
    intro acc y
    simp only [List.foldl_cons]
    rw [ih]
    rw [mem_insertSorted]
    simp
    tauto

/-- The recommendation loop preserves the length of its input. -/
theorem buildRecs_length (hist : Option WorkoutHistory)
    (wv : List (Nat × Int)) (mp : Option MovementPatterns) :
    ∀ (l : List Exercise) (i : Nat) (rs : List ExerciseRecommendation),
      buildRecs hist wv mp i l = .ok rs → rs.length = l.length := by
  intro l
  induction l with
  | nil =>
    intro i rs h
    simp [buildRecs] at h
    simp [← h]
  | cons ex rest ih =>
    intro i rs h
    unfold buildRecs at h
    cases hb : buildRec hist wv mp i ex with
    | error e => rw [hb] at h; exact absurd h (by simp)
    | ok r =>
      rw [hb] at h
      cases hr : buildRecs hist wv mp (i + 1) rest with
      | error e => rw [hr] at h; exact absurd h (by simp)
      | ok rs0 =>
        rw [hr] at h
        simp at h
        have := ih (i + 1) rs0 hr
        simp [← h, this]

/-- Every recommendation the loop produces comes from an exercise of the
input list, with its id, and that exercise cannot have carried a truthy
string last_performed value (the loop would have raised on it). -/
theorem buildRecs_sources (hist : Option WorkoutHistory)
    (wv : List (Nat × Int)) (mp : Option MovementPatterns) :
    ∀ (l : List Exercise) (i : Nat) (rs : List ExerciseRecommendation),
      buildRecs hist wv mp i l = .ok rs →
      ∀ r ∈ rs, ∃ ex ∈ l, r.exercise_id = ex.id ∧
        ∀ s p, rawLastValue hist ex.id = some (.str s p) → s = "" := by
  intro l
  induction l with
  | nil =>
    intro i rs h
    simp [buildRecs] at h
    subst h
    intro r hr
    simp at hr
  | cons ex rest ih =>
    intro i rs h
    unfold buildRecs at h
    cases hb : buildRec hist wv mp i ex with
    | error e => rw [hb] at h; exact absurd h (by simp)
    | ok r =>
      rw [hb] at h
      cases hr : buildRecs hist wv mp (i + 1) rest with
      | error e => rw [hr] at h; exact absurd h (by simp)
      | ok rs0 =>
        rw [hr] at h
        simp at h
        intro q hq
        rw [← h] at hq
        rcases List.mem_cons.mp hq with hq | hq
        · refine ⟨ex, by simp, ?_, ?_⟩
          · have : q = r := hq
            rw [this]
            unfold buildRec at hb
            cases hv : rawLastValue hist ex.id with
            | none => rw [hv] at hb; simp at hb; rw [← hb]
            | some v =>
              cases v with
              | dt t => rw [hv] at hb; simp at hb; rw [← hb]
              | str s p =>
                rw [hv] at hb
                by_cases hs : s = ""
                · simp [hs] at hb; rw [← hb]
                · simp [hs] at hb
          · intro s p hv
            unfold buildRec at hb
            rw [hv] at hb
            by_cases hs : s = ""
            · exact hs
            · simp [hs] at hb
        · rcases ih (i + 1) rs0 hr q hq with ⟨ex0, hm, hid, hsafe⟩
          exact ⟨ex0, by simp [hm], hid, hsafe⟩

/-- The injury filter keeps exactly the candidates no restriction matches,
in order. -/
theorem injurySplit_kept (restr : List InjuryRestriction) :
    ∀ exs : List Exercise,
      (injurySplit restr exs).2 =
        exs.filter (fun ex => (is_restricted_by_injury ex restr).isNone) := by
  intro exs
  induction exs with
  | nil => rfl
  | cons ex rest ih =>
    unfold injurySplit
    cases h : is_restricted_by_injury ex restr with
    | none => simp [h, ih, List.filter_cons]
    | some reason => simp [h, ih, List.filter_cons]

/-- Every candidate the injury filter rejects contributes its entry, with
the first matching reason, to the injury exclusion list. -/
theorem injurySplit_excl_mem (restr : List InjuryRestriction) :
    ∀ (exs : List Exercise) (ex : Exercise) (reason : String),
      ex ∈ exs → is_restricted_by_injury ex restr = some reason →
      (⟨ex.id, ex.name, reason⟩ : NotRecommendedExercise) ∈
        (injurySplit restr exs).1 := by
  intro exs
  induction exs with
  | nil => intro ex reason h; simp at h
  | cons e0 rest ih =>
    intro ex reason hmem hres
    unfold injurySplit
    rcases List.mem_cons.mp hmem with heq | hmem0
    · subst heq
      rw [hres]
      simp
    · cases h : is_restricted_by_injury e0 restr with
      | none => simpa [h] using ih ex reason hmem0 hres
      | some r0 =>
        simp [h]
        right
        exact ih ex reason hmem0 hres

/-- Every injury exclusion entry is built from a rejected candidate of the
input list. -/
theorem injurySplit_excl_src (restr : List InjuryRestriction) :
    ∀ (exs : List Exercise) (e : NotRecommendedExercise),
      e ∈ (injurySplit restr exs).1 →
      ∃ ex ∈ exs, e.exercise_id = ex.id ∧ e.exercise_name = ex.name ∧
        is_restricted_by_injury ex restr = some e.reason := by
  intro exs
  induction exs with
  | nil => intro e h; simp [injurySplit] at h
  | cons e0 rest ih =>
    intro e h
    unfold injurySplit at h
    cases hr : is_restricted_by_injury e0 restr with
    | none =>
      rw [hr] at h
      rcases ih e h with ⟨ex, hm, h1, h2, h3⟩
      exact ⟨ex, by simp [hm], h1, h2, h3⟩
    | some reason =>
      rw [hr] at h
      rcases List.mem_cons.mp h with heq | hm
      · exact ⟨e0, by simp, by rw [heq], by rw [heq], by rw [heq]; exact hr⟩
      · rcases ih e hm with ⟨ex, hm0, h1, h2, h3⟩
        exact ⟨ex, by simp [hm0], h1, h2, h3⟩

/-- The equipment-filter counter equals the number of equipment
exclusions. -/
theorem equipmentSplit_count (avail : List Nat) :
    ∀ exs : List Exercise,
      (equipmentSplit avail exs).2.2 = (equipmentSplit avail exs).1.length := by
  intro exs
  induction exs with
  | nil => rfl
  | cons ex rest ih =>
    unfold equipmentSplit
    by_cases h : hasAvailableEquipment ex avail = true
    · simp [h, ih]
    · simp [h, ih]

/-- Every candidate failing the equipment test contributes its exclusion
entry with the equipment reason. -/
theorem equipmentSplit_excl_mem (avail : List Nat) :
    ∀ (exs : List Exercise) (ex : Exercise),
      ex ∈ exs → hasAvailableEquipment ex avail = false →
      (⟨ex.id, ex.name, "Equipment not available: " ++ equipmentName ex⟩ :
          NotRecommendedExercise) ∈ (equipmentSplit avail exs).1 := by
  intro exs
  induction exs with
  | nil => intro ex h; simp at h
  | cons e0 rest ih =>
    intro ex hmem hfail
    unfold equipmentSplit
    rcases List.mem_cons.mp hmem with heq | hmem0
    · subst heq
      simp [hfail]
    · by_cases h : hasAvailableEquipment e0 avail = true
      · simpa [h] using ih ex hmem0 hfail
      · simp [h]
        right
        exact ih ex hmem0 hfail

/-- Every equipment exclusion entry is built from a failing candidate of
the input list. -/
theorem equipmentSplit_excl_src (avail : List Nat) :
    ∀ (exs : List Exercise) (e : NotRecommendedExercise),
      e ∈ (equipmentSplit avail exs).1 →
      ∃ ex ∈ exs, e.exercise_id = ex.id ∧
        hasAvailableEquipment ex avail = false ∧
        e.reason = "Equipment not available: " ++ equipmentName ex := by
  intro exs
  induction exs with
  | nil => intro e h; simp [equipmentSplit] at h
  | cons e0 rest ih =>
    intro e h
    unfold equipmentSplit at h
    by_cases hq : hasAvailableEquipment e0 avail = true
    · rw [if_pos hq] at h
      rcases ih e h with ⟨ex, hm, h1, h2, h3⟩
      exact ⟨ex, by simp [hm], h1, h2, h3⟩
    · rw [if_neg hq] at h
      rcases List.mem_cons.mp h with heq | hm
      · refine ⟨e0, by simp, by rw [heq], by simpa using hq, by rw [heq]⟩
      · rcases ih e hm with ⟨ex, hm0, h1, h2, h3⟩
        exact ⟨ex, by simp [hm0], h1, h2, h3⟩

/-- The surviving list of the equipment filter consists of members of its
input. -/
theorem equipmentSplit_kept_sub (avail : List Nat) :
    ∀ (exs : List Exercise) (y : Exercise),
      y ∈ (equipmentSplit avail exs).2.1 → y ∈ exs := by
  intro exs
  induction exs with
  | nil => intro y h; simp [equipmentSplit] at h
  | cons e0 rest ih =>
    intro y h
    unfold equipmentSplit at h
    by_cases hq : hasAvailableEquipment e0 avail = true
    · rw [if_pos hq] at h
      rcases List.mem_cons.mp h with heq | hm
      · simp [heq]
      · simp [ih y hm]
    · rw [if_neg hq] at h
      simp [ih y h]

/-- The inner scan of step 5 names the candidate it was built from. -/
theorem volumeExclFind_id (wv : List (Nat × Int)) (ex : Exercise) :
    ∀ (mgs : List MuscleGroupRef) (e : NotRecommendedExercise),
      volumeExclFind wv ex mgs = some e →
      e.exercise_id = ex.id ∧ e.exercise_name = ex.name := by
  intro mgs
  induction mgs with
  | nil => intro e h; simp [volumeExclFind] at h
  | cons mg rest ih =>
    intro e h
    unfold volumeExclFind at h
    split at h
    · split at h
      · simp at h
        simp [← h]
      · exact ih e h
    · exact ih e h

/-- A volume exclusion names the candidate it was built from. -/
theorem volumeExclusion_id (wv : List (Nat × Int)) (ex : Exercise)
    (e : NotRecommendedExercise) (h : volumeExclusion wv ex = some e) :
    e.exercise_id = ex.id := by
  unfold volumeExclusion at h
  by_cases h1 : wv = []
  · simp [h1] at h
  · rw [if_neg h1] at h
    by_cases h2 : ex.muscle_groups = []
    · simp [h2] at h
    · rw [if_neg h2] at h
      exact (volumeExclFind_id wv ex ex.muscle_groups e h).1

/-- A recency exclusion names the candidate it was built from. -/
theorem recencyExclusion_id (hist : Option WorkoutHistory) (now : Int)
    (ex : Exercise) (e : NotRecommendedExercise)
    (h : recencyExclusion hist now ex = some e) : e.exercise_id = ex.id := by
  unfold recencyExclusion at h
  split at h
  · simp at h
  · split at h
    · simp at h
    · split at h
      · simp at h
      · split at h
        · simp at h
        · split at h
          · simp at h
            simp [← h]
          · simp at h

/-- Destructor for a successful fallback run: the response is the record
built from the named pipeline stages. -/
theorem fallbackBody_dest (exs : List Exercise) (avail : List Nat)
    (hist : Option WorkoutHistory) (wv : List (Nat × Int))
    (mp : Option MovementPatterns) (restr : List InjuryRestriction)
    (limit : Nat) (now : Int) (r : RecommendationResponse)
    (h : fallbackBody exs avail hist wv mp restr limit now = .ok r) :
    ∃ recs,
      buildRecs hist wv mp 0
          ((sortCandidates wv mp hist (survivors restr avail exs)).take limit) =
        .ok recs ∧
      r = { recommendations := recs
            not_recommended :=
              (cappedExclusions restr avail wv hist now exs).filter
                (fun e =>
                  !((recs.map (fun x => x.exercise_id)).contains e.exercise_id))
            total_candidates := exs.length
            filtered_by_equipment := filteredByEquipmentCount restr avail exs
            provider := some "fallback" } := by
  unfold fallbackBody at h
  split at h
  · simp at h
  · next recs heq =>
      exact ⟨recs, heq, (Except.ok.inj h).symm⟩

/-- A string value surfaced by the raw lookup of a safe history is empty. -/
theorem rawLastValue_str (hist : Option WorkoutHistory) (id : Nat)
    (s : String) (p : Option Int)
    (hv : rawLastValue hist id = some (.str s p)) (hs : histSafe hist) :
    s = "" := by
  cases hist with
  | none => simp [rawLastValue] at hv
  | some w =>
    cases hlp : w.last_performed with
    | none => simp [rawLastValue, hlp] at hv
    | some lp =>
      simp [rawLastValue, hlp] at hv
      exact hs w lp id s p rfl hlp hv

/-- Under a safe history every single recommendation builds. -/
theorem buildRec_ok (hist : Option WorkoutHistory) (wv : List (Nat × Int))
    (mp : Option MovementPatterns) (i : Nat) (ex : Exercise)
    (hs : histSafe hist) : ∃ v, buildRec hist wv mp i ex = .ok v := by
  unfold buildRec
  cases hv : rawLastValue hist ex.id with
  | none =>
    simp only [hv]
    exact ⟨_, rfl⟩
  | some v =>
    cases v with
    | dt t =>
      simp only [hv]
      exact ⟨_, rfl⟩
    | str s p =>
      have hse : s = "" := rawLastValue_str hist ex.id s p hv hs
      subst hse
      simp only [hv]
      exact ⟨_, rfl⟩

/-- Under a safe history the whole recommendation loop succeeds. -/
theorem buildRecs_ok (hist : Option WorkoutHistory) (wv : List (Nat × Int))
    (mp : Option MovementPatterns) (hs : histSafe hist) :
    ∀ (l : List Exercise) (i : Nat), ∃ rs, buildRecs hist wv mp i l = .ok rs := by
  intro l
  induction l with
  | nil => intro i; exact ⟨[], rfl⟩
  | cons ex rest ih =>
    intro i
    obtain ⟨v, hv⟩ := buildRec_ok hist wv mp i ex hs
    obtain ⟨rs, hrs⟩ := ih (i + 1)
    refine ⟨v :: rs, ?_⟩
    unfold buildRecs
    rw [hv, hrs]

/-- Under a safe history the fallback body produces a response. -/
theorem fallbackBody_ok (exs : List Exercise) (avail : List Nat)
    (hist : Option WorkoutHistory) (wv : List (Nat × Int))
    (mp : Option MovementPatterns) (restr : List InjuryRestriction)
    (limit : Nat) (now : Int) (hs : histSafe hist) :
    ∃ r, fallbackBody exs avail hist wv mp restr limit now = .ok r := by
  obtain ⟨recs, hrecs⟩ := buildRecs_ok hist wv mp hs
    ((sortCandidates wv mp hist (survivors restr avail exs)).take limit) 0
  unfold fallbackBody
  simp only [hrecs]
  exact ⟨_, rfl⟩

/-- Under a successful candidate read and a safe history the fallback
provider returns a response. -/
theorem fallback_ok (exs : List Exercise) (repo : Except String (List Exercise))
    (avail : List Nat) (hist : Option WorkoutHistory) (wv : List (Nat × Int))
    (mp : Option MovementPatterns) (restr : List InjuryRestriction)
    (limit : Nat) (now : Int) (hrepo : repo = .ok exs) (hs : histSafe hist) :
    ∃ r, get_exercise_recommendations repo avail hist wv mp restr limit now = .ok r := by
  subst hrepo
  exact fallbackBody_ok exs avail hist wv mp restr limit now hs

/-- Under a successful candidate read and a safe history the provider
chain of the service always produces a response. -/
theorem chain_ok (env : Env) (eqIds : List Nat) (hist : Option WorkoutHistory)
    (limit : Nat) (now : Int) (exs : List Exercise)
    (hrepo : env.repo = .ok exs) (hs : histSafe hist) :
    ∃ r n, chainResult env eqIds hist limit now = (.ok r, n) := by
  obtain ⟨rf, hrf⟩ := fallback_ok exs env.repo eqIds hist env.weekly_volume
    none [] limit now hrepo hs
  unfold chainResult
  cases htry : tryBlock env eqIds hist limit now with
  | mk res n =>
    cases res with
    | ok r => exact ⟨r, n, rfl⟩
    | error e =>
      unfold exceptBlock
      by_cases hsel : (selectProvider env = .claude && env.gemini_available) = true
      · rw [if_pos hsel]
        cases hg : env.gemini_outcome with
        | ok g =>
          by_cases hz : g.total_candidates = 0
          · simp [hz, fbExc, hrf]
          · simp [hz, fbExc, hrf]
        | error e2 => simp [fbExc, hrf]
      · rw [if_neg hsel]
        simp [fbExc, hrf]

/-- Under a successful candidate read and a safe history the service call
returns a response, never an exception. -/
theorem service_ok (env : Env) (st : CacheState) (now : Int)
    (mgIds eqIds : List Nat) (hist : Option WorkoutHistory) (limit : Nat)
    (use_cache : Bool) (exs : List Exercise)
    (hrepo : env.repo = .ok exs) (hs : histSafe hist) :
    ∃ r st1 n,
      service_get_recommendations env st now mgIds eqIds hist limit use_cache =
        (.ok r, st1, n) := by
  obtain ⟨rc, nc, hc⟩ := chain_ok env eqIds hist limit now exs hrepo hs
  unfold service_get_recommendations
  cases hlk : (if use_cache then cacheLookup st (cache_key mgIds eqIds) else none) with
  | some p =>
    simp only [hlk]
    by_cases hf : now - p.2 < cacheTTL
    · rw [if_pos hf]
      exact ⟨_, _, _, rfl⟩
    · rw [if_neg hf]
      unfold serviceMiss
      simp only [hc]
      exact ⟨_, _, _, rfl⟩
  | none =>
    simp only [hlk]
    unfold serviceMiss
    simp only [hc]
    exact ⟨_, _, _, rfl⟩

/-- On an empty snapshot no muscle group has a high entry. -/
theorem firstHighSets_nil : ∀ mgs : List MuscleGroupRef,
    firstHighSets [] mgs = none := by
  intro mgs
  induction mgs with
  | nil => rfl
  | cons mg rest ih =>
    unfold firstHighSets
    exact ih

/-- The penalty loop is driven by the first muscle group whose entry
exceeds 10 sets. -/
theorem volPenaltyLoop_eq (wv : List (Nat × Int)) :
    ∀ mgs : List MuscleGroupRef,
      volPenaltyLoop wv mgs =
        (match firstHighSets wv mgs with
         | some s => if s > 20 then (⟨5, 10⟩ : Frac) else ⟨2, 10⟩
         | none => ⟨0, 1⟩) := by
  intro mgs
  induction mgs with
  | nil => rfl
  | cons mg rest ih =>
    unfold volPenaltyLoop firstHighSets
    cases hl : wv.lookup mg.id with
    | none =>
      simp only [hl]
      exact ih
    | some sets =>
      by_cases h20 : sets > 20
      · have h10 : sets > 10 := by omega
        simp [hl, h20, h10]
      · by_cases h10 : sets > 10
        · simp [hl, h20, h10]
        · simp only [hl, if_neg h10, if_neg h20]
          exact ih

/-- C4: with muscle groups at 15 and 25 sets, the maximum exceeds 20 so
the claim demands a penalty of 0.5, but get_volume_penalty returns at the
first group above 10 sets and yields 0.2: the claim is false at this
input. -/
theorem c4_counterexample :
    get_volume_penalty wvC4 exC4 = ⟨2, 10⟩ ∧
    specVolumePenalty wvC4 exC4 = ⟨5, 10⟩ ∧
    feq ⟨2, 10⟩ ⟨5, 10⟩ = false := by
  refine ⟨by decide, by decide, by decide⟩

/-- C4 (amended): the volume penalty of a surviving candidate is decided
by the first muscle group, in the muscle-group order of the candidate, whose
snapshot total_sets exceeds 10: the penalty is 0.5 when the sets of that
group exceed 20 and 0.2 otherwise, and 0 when no associated group exceeds 10
sets (in particular a later group above 20 sets is masked by an earlier
group in the 11..20 range). -/
theorem c4_amended_theorem :
    ∀ (wv : List (Nat × Int)) (ex : Exercise),
      get_volume_penalty wv ex =
        (match firstHighSets wv ex.muscle_groups with
         | some s => if s > 20 then (⟨5, 10⟩ : Frac) else ⟨2, 10⟩
         | none => ⟨0, 1⟩) := by
  intro wv ex
  unfold get_volume_penalty
  by_cases h1 : wv = []
  · subst h1
    rw [if_pos rfl, firstHighSets_nil]
  · rw [if_neg h1]
    by_cases h2 : ex.muscle_groups = []
    · rw [if_pos h2, h2]
      rfl
    · rw [if_neg h2]
      exact volPenaltyLoop_eq wv ex.muscle_groups

/-- C5: the equipment filter passes a candidate iff it is bodyweight
(no primary equipment), or the available set is empty, or its primary or
secondary equipment id is available; a bodyweight candidate is never
excluded for equipment reasons; each failing candidate is excluded with
the equipment reason and the filtered_by_equipment counter counts exactly
the equipment exclusions, and the returned response carries that count. -/
theorem c5_equipment_filter :
    (∀ (ex : Exercise) (avail : List Nat),
       hasAvailableEquipment ex avail = true ↔
         (ex.primary_equipment_id = none ∨ avail = [] ∨
           (∃ p, ex.primary_equipment_id = some p ∧ p ∈ avail) ∨
           (∃ s, ex.secondary_equipment_id = some s ∧ s ∈ avail))) ∧
    (∀ (ex : Exercise) (avail : List Nat), ex.primary_equipment_id = none →
       hasAvailableEquipment ex avail = true) ∧
    (∀ (avail : List Nat) (exs : List Exercise),
       (equipmentSplit avail exs).2.2 = (equipmentSplit avail exs).1.length) ∧
    (∀ (avail : List Nat) (exs : List Exercise) (ex : Exercise),
       ex ∈ exs → hasAvailableEquipment ex avail = false →
       (⟨ex.id, ex.name, "Equipment not available: " ++ equipmentName ex⟩ :
           NotRecommendedExercise) ∈ (equipmentSplit avail exs).1) ∧
    (∀ (exs : List Exercise) (avail : List Nat) (hist : Option WorkoutHistory)
       (wv : List (Nat × Int)) (mp : Option MovementPatterns)
       (restr : List InjuryRestriction) (limit : Nat) (now : Int)
       (r : RecommendationResponse),
       get_exercise_recommendations (.ok exs) avail hist wv mp restr limit now = .ok r →
       r.filtered_by_equipment = filteredByEquipmentCount restr avail exs) := by
  refine ⟨?_, ?_, ?_, ?_, ?_⟩
  · intro ex avail
    cases hp : ex.primary_equipment_id with
    | none => simp [hasAvailableEquipment, hp]
    | some p =>
      cases avail with
      | nil => simp [hasAvailableEquipment, hp]
      | cons a as =>
        cases hs : ex.secondary_equipment_id with
        | none =>
          simp [hasAvailableEquipment, hp, hs]
        | some sid =>
          simp [hasAvailableEquipment, hp, hs]
  · intro ex avail hp
    simp [hasAvailableEquipment, hp]
  · intro avail exs
    exact equipmentSplit_count avail exs
  · intro avail exs ex hmem hfail
    exact equipmentSplit_excl_mem avail exs ex hmem hfail
  · intro exs avail hist wv mp restr limit now r h
    obtain ⟨recs, hrecs, hr⟩ :=
      fallbackBody_dest exs avail hist wv mp restr limit now r h
    rw [hr]

/-- A candidate kept by the injury filter is a candidate no restriction
matches. -/
theorem injuryKept_prop (restr : List InjuryRestriction)
    (exs : List Exercise) (y : Exercise)
    (h : y ∈ (injurySplit restr exs).2) :
    y ∈ exs ∧ is_restricted_by_injury y restr = none := by
  rw [injurySplit_kept] at h
  have hm := List.mem_filter.mp h
  exact ⟨hm.1, Option.isNone_iff_eq_none.mp hm.2⟩

/-- C6: the injury check rejects a candidate exactly when some restriction
matches it, with the reason built from the first matching restriction (no
later restriction is consulted).  In the pipeline, a rejected candidate
contributes its injury entry to the merged exclusion list, never survives
into the equipment stage, and (for distinct candidate ids) every merged
exclusion entry carrying its id is that injury entry — so an injury reason
is never masked by an equipment, volume or recency reason. -/
theorem c6_injury_filter :
    (∀ (ex : Exercise) (rs : List InjuryRestriction),
       is_restricted_by_injury ex rs =
         (rs.find? (fun r => restrictionHit r ex)).map
           (fun r => "May aggravate " ++ r.injury_name)) ∧
    (∀ (restr : List InjuryRestriction) (avail : List Nat)
       (wv : List (Nat × Int)) (hist : Option WorkoutHistory) (now : Int)
       (exs : List Exercise) (ex : Exercise) (reason : String),
       ex ∈ exs → is_restricted_by_injury ex restr = some reason →
       (⟨ex.id, ex.name, reason⟩ : NotRecommendedExercise) ∈
           rawExclusions restr avail wv hist now exs ∧
       ex ∉ survivors restr avail exs ∧
       ((exs.map (fun e => e.id)).Nodup →
         ∀ e ∈ rawExclusions restr avail wv hist now exs,
           e.exercise_id = ex.id →
           e = ⟨ex.id, ex.name, reason⟩)) := by
  constructor
  · intro ex rs
    induction rs with
    | nil => rfl
    | cons r rest ih =>
      unfold is_restricted_by_injury
      rw [List.find?_cons]
      by_cases h : restrictionHit r ex = true
      · simp [h]
      · simp only [h]
        simp at h
        simp [h, ih]
  · intro restr avail wv hist now exs ex reason hmem hres
    refine ⟨?_, ?_, ?_⟩
    · unfold rawExclusions
      have := injurySplit_excl_mem restr exs ex reason hmem hres
      simp [this]
    · intro hsurv
      unfold survivors at hsurv
      have hkept := equipmentSplit_kept_sub avail (injurySplit restr exs).2 ex hsurv
      have := (injuryKept_prop restr exs ex hkept).2
      rw [hres] at this
      exact absurd this (by simp)
    · intro hnd e he heid
      have hinj := List.inj_on_of_nodup_map hnd
      unfold rawExclusions at he
      rcases List.mem_append.mp he with he | he
      rcases List.mem_append.mp he with he | he
      rcases List.mem_append.mp he with he | he
      · rcases injurySplit_excl_src restr exs e he with ⟨z, hz, h1, h2, h3⟩
        have hze : z = ex := hinj hz hmem (by rw [← h1, heid])
        subst hze
        rw [hres] at h3
        cases e
        simp at h1 h2 h3 heid ⊢
        exact ⟨heid, h2, h3.symm⟩
      · rcases equipmentSplit_excl_src avail (injurySplit restr exs).2 e he with
          ⟨y, hy, h1, h2, h3⟩
        have hyp := injuryKept_prop restr exs y hy
        have hye : y = ex := hinj hyp.1 hmem (by rw [← h1, heid])
        rw [hye] at hyp
        rw [hres] at hyp
        exact absurd hyp.2 (by simp)
      · rcases List.mem_filterMap.mp he with ⟨y, hy, hv⟩
        have hid := volumeExclusion_id wv y e hv
        have hyk := equipmentSplit_kept_sub avail (injurySplit restr exs).2 y hy
        have hyp := injuryKept_prop restr exs y hyk
        have hye : y = ex := hinj hyp.1 hmem (by rw [← hid, heid])
        rw [hye] at hyp
        rw [hres] at hyp
        exact absurd hyp.2 (by simp)
      · rcases List.mem_filterMap.mp he with ⟨y, hy, hv⟩
        have hid := recencyExclusion_id hist now y e hv
        have hyk := equipmentSplit_kept_sub avail (injurySplit restr exs).2 y hy
        have hyp := injuryKept_prop restr exs y hyk
        have hye : y = ex := hinj hyp.1 hmem (by rw [← hid, heid])
        rw [hye] at hyp
        rw [hres] at hyp
        exact absurd hyp.2 (by simp)

/-- C8: the rule-based provider returns exactly min(limit, survivors)
recommendations, hence never more than the limit; the Claude parse path
truncates its recommendations to the limit as well. -/
theorem c8_limit :
    (∀ (exs : List Exercise) (avail : List Nat) (hist : Option WorkoutHistory)
       (wv : List (Nat × Int)) (mp : Option MovementPatterns)
       (restr : List InjuryRestriction) (limit : Nat) (now : Int)
       (r : RecommendationResponse),
       get_exercise_recommendations (.ok exs) avail hist wv mp restr limit now = .ok r →
       r.recommendations.length = min limit (survivors restr avail exs).length ∧
       r.recommendations.length ≤ limit) ∧
    (∀ (jsonParse : String → Option ParsedReply) (text : String)
       (limit : Nat) (r : RecommendationResponse),
       claude_parse_response jsonParse text limit = .ok r →
       r.recommendations.length ≤ limit) := by
  constructor
  · intro exs avail hist wv mp restr limit now r h
    obtain ⟨recs, hrecs, hr⟩ :=
      fallbackBody_dest exs avail hist wv mp restr limit now r h
    have hlen := buildRecs_length hist wv mp _ _ _ hrecs
    have htake := List.length_take limit
      (sortCandidates wv mp hist (survivors restr avail exs))
    have hsort : (sortCandidates wv mp hist (survivors restr avail exs)).length =
        (survivors restr avail exs).length := by
      unfold sortCandidates
      exact length_stableSort _ _
    constructor
    · rw [hr]
      show recs.length = _
      rw [hlen, htake, hsort]
    · rw [hr]
      show recs.length ≤ limit
      rw [hlen, htake]
      exact Nat.min_le_left _ _
  · intro jsonParse text limit r h
    unfold claude_parse_response at h
    split at h
    · simp at h
    · split at h
      · simp at h
      · have hr := Except.ok.inj h
        rw [← hr]
        simp

/-- C3 (amended): in every response the rule-based provider produces, no
exercise id of the recommendation list also occurs in the exclusion list
(the final filter removes recommended ids from not_recommended); remote
adapters relay the two lists of the reply as they are, so the invariant is
enforced only on the rule-based path. -/
theorem c3_disjoint :
    ∀ (exs : List Exercise) (avail : List Nat) (hist : Option WorkoutHistory)
      (wv : List (Nat × Int)) (mp : Option MovementPatterns)
      (restr : List InjuryRestriction) (limit : Nat) (now : Int)
      (r : RecommendationResponse),
      get_exercise_recommendations (.ok exs) avail hist wv mp restr limit now = .ok r →
      ∀ e ∈ r.not_recommended, ∀ rec ∈ r.recommendations,
        rec.exercise_id ≠ e.exercise_id := by
  intro exs avail hist wv mp restr limit now r h e he rec hrec
  obtain ⟨recs, hrecs, hr⟩ :=
    fallbackBody_dest exs avail hist wv mp restr limit now r h
  rw [hr] at he hrec
  simp only at he hrec
  have hf := (List.mem_filter.mp he).2
  simp at hf
  intro heq
  exact hf rec hrec heq

/-- C2: every response the rule-based provider returns carries the ordered
exclusion list it computed (each entry an exercise_id, name and reason),
the candidate count, the equipment-filter count and the provider name. -/
theorem c2_result_shape :
    ∀ (exs : List Exercise) (avail : List Nat) (hist : Option WorkoutHistory)
      (wv : List (Nat × Int)) (mp : Option MovementPatterns)
      (restr : List InjuryRestriction) (limit : Nat) (now : Int)
      (r : RecommendationResponse),
      get_exercise_recommendations (.ok exs) avail hist wv mp restr limit now = .ok r →
      r.provider = some "fallback" ∧
      r.total_candidates = exs.length ∧
      r.filtered_by_equipment = filteredByEquipmentCount restr avail exs ∧
      r.not_recommended =
        (cappedExclusions restr avail wv hist now exs).filter
          (fun e =>
            !((r.recommendations.map (fun x => x.exercise_id)).contains
                e.exercise_id)) := by
  intro exs avail hist wv mp restr limit now r h
  obtain ⟨recs, hrecs, hr⟩ :=
    fallbackBody_dest exs avail hist wv mp restr limit now r h
  rw [hr]
  exact ⟨rfl, rfl, rfl, rfl⟩

/-- The Claude parse succeeds exactly on a parsable reply whose truncated
recommendation list and total count are nonempty. -/
theorem claude_parse_ok_iff (jp : String → Option ParsedReply)
    (text : String) (lim : Nat) :
    (∃ r, claude_parse_response jp text lim = .ok r) ↔
      (∃ data, jp (stripCodeFence text) = some data ∧
        data.total_candidates.getD data.recommendations.length ≠ 0 ∧
        (data.recommendations.take lim).length ≠ 0) := by
  constructor
  · rintro ⟨r, hr⟩
    unfold claude_parse_response at hr
    cases hjp : jp (stripCodeFence text) with
    | none => rw [hjp] at hr; simp at hr
    | some data =>
      simp only [hjp] at hr
      split at hr
      · simp at hr
      · next hcond =>
        simp at hcond
        refine ⟨data, rfl, hcond.1, ?_⟩
        simp [hcond.2.1, hcond.2.2]
  · rintro ⟨data, hjp, h1, h2⟩
    unfold claude_parse_response
    simp only [hjp]
    refine ⟨{ recommendations := data.recommendations.take lim
              not_recommended := data.not_recommended.take 10
              total_candidates := data.total_candidates.getD data.recommendations.length
              filtered_by_equipment := data.filtered_by_equipment.getD data.recommendations.length
              provider := some "claude" }, ?_⟩
    split
    · next hcond =>
      exfalso
      revert hcond
      simp [h1]
      simpa using h2
    · rfl

/-- A successful Claude parse is tagged with the claude provider name. -/
theorem claude_parse_provider (jp : String → Option ParsedReply)
    (text : String) (lim : Nat) (r : RecommendationResponse)
    (h : claude_parse_response jp text lim = .ok r) :
    r.provider = some "claude" := by
  unfold claude_parse_response at h
  cases hjp : jp (stripCodeFence text) with
  | none => rw [hjp] at h; simp at h
  | some data =>
    simp only [hjp] at h
    split at h
    · simp at h
    · rw [← Except.ok.inj h]

/-- The Gemini parse succeeds exactly on a parsable reply whose truncated
recommendation list and total count are nonempty. -/
theorem gemini_parse_ok_iff (jp : String → Option ParsedReply)
    (text : String) (lim : Nat) :
    (∃ r, gemini_parse_response jp text lim = .ok r) ↔
      (∃ data, jp (stripCodeFence text) = some data ∧
        data.total_candidates.getD data.recommendations.length ≠ 0 ∧
        (data.recommendations.take lim).length ≠ 0) := by
  constructor
  · rintro ⟨r, hr⟩
    unfold gemini_parse_response at hr
    cases hjp : jp (stripCodeFence text) with
    | none => rw [hjp] at hr; simp at hr
    | some data =>
      simp only [hjp] at hr
      split at hr
      · simp at hr
      · next hcond =>
        simp at hcond
        refine ⟨data, rfl, hcond.1, ?_⟩
        simp [hcond.2.1, hcond.2.2]
  · rintro ⟨data, hjp, h1, h2⟩
    unfold gemini_parse_response
    simp only [hjp]
    refine ⟨{ recommendations := data.recommendations.take lim
              not_recommended := []
              total_candidates := data.total_candidates.getD data.recommendations.length
              filtered_by_equipment := data.filtered_by_equipment.getD data.recommendations.length
              provider := some "gemini" }, ?_⟩
    split
    · next hcond =>
      exfalso
      revert hcond
      simp [h1]
      simpa using h2
    · rfl

/-- A successful Gemini parse is tagged with the gemini provider name. -/
theorem gemini_parse_provider (jp : String → Option ParsedReply)
    (text : String) (lim : Nat) (r : RecommendationResponse)
    (h : gemini_parse_response jp text lim = .ok r) :
    r.provider = some "gemini" := by
  unfold gemini_parse_response at h
  cases hjp : jp (stripCodeFence text) with
  | none => rw [hjp] at h; simp at h
  | some data =>
    simp only [hjp] at h
    split at h
    · simp at h
    · rw [← Except.ok.inj h]

/-- C9: each remote adapter returns a response exactly when it is
available, its client was built, the transport succeeded and the reply,
after code-fence stripping, parses with a nonzero total and a nonempty
(truncated) recommendation list; any other situation raises.  On success
the response carries the own name of the provider. -/
theorem c9_remote_adapters :
    (∀ (available clientOk : Bool) (transport : Except String String)
       (jsonParse : String → Option ParsedReply) (limit : Nat),
       ((∃ r, claude_get_exercise_recommendations available clientOk transport
            jsonParse limit = .ok r) ↔
         (available = true ∧ clientOk = true ∧
           ∃ text data, transport = .ok text ∧
             jsonParse (stripCodeFence text) = some data ∧
             data.total_candidates.getD data.recommendations.length ≠ 0 ∧
             (data.recommendations.take limit).length ≠ 0)) ∧
       (∀ r, claude_get_exercise_recommendations available clientOk transport
            jsonParse limit = .ok r → r.provider = some "claude")) ∧
    (∀ (available clientOk : Bool) (transport : Except String String)
       (jsonParse : String → Option ParsedReply) (limit : Nat),
       ((∃ r, gemini_get_exercise_recommendations available clientOk transport
            jsonParse limit = .ok r) ↔
         (available = true ∧ clientOk = true ∧
           ∃ text data, transport = .ok text ∧
             jsonParse (stripCodeFence text) = some data ∧
             data.total_candidates.getD data.recommendations.length ≠ 0 ∧
             (data.recommendations.take limit).length ≠ 0)) ∧
       (∀ r, gemini_get_exercise_recommendations available clientOk transport
            jsonParse limit = .ok r → r.provider = some "gemini")) := by
  constructor
  · intro av ck tr jp lim
    cases av with
    | false =>
      constructor
      · simp [claude_get_exercise_recommendations]
      · intro r hr
        simp [claude_get_exercise_recommendations] at hr
    | true =>
      cases ck with
      | false =>
        constructor
        · simp [claude_get_exercise_recommendations]
        · intro r hr
          simp [claude_get_exercise_recommendations] at hr
      | true =>
        cases tr with
        | error e =>
          constructor
          · simp [claude_get_exercise_recommendations]
          · intro r hr
            simp [claude_get_exercise_recommendations] at hr
        | ok text =>
          constructor
          · rw [show claude_get_exercise_recommendations true true (.ok text) jp lim =
                claude_parse_response jp text lim from rfl]
            rw [claude_parse_ok_iff jp text lim]
            constructor
            · rintro ⟨data, h⟩
              exact ⟨rfl, rfl, text, data, rfl, h⟩
            · rintro ⟨_, _, text2, data, htr, h⟩
              have htt : text2 = text := Except.ok.inj htr.symm
              subst htt
              exact ⟨data, h⟩
          · intro r hr
            exact claude_parse_provider jp text lim r hr
  · intro av ck tr jp lim
    cases av with
    | false =>
      constructor
      · simp [gemini_get_exercise_recommendations]
      · intro r hr
        simp [gemini_get_exercise_recommendations] at hr
    | true =>
      cases ck with
      | false =>
        constructor
        · simp [gemini_get_exercise_recommendations]
        · intro r hr
          simp [gemini_get_exercise_recommendations] at hr
      | true =>
        cases tr with
        | error e =>
          constructor
          · simp [gemini_get_exercise_recommendations]
          · intro r hr
            simp [gemini_get_exercise_recommendations] at hr
        | ok text =>
          constructor
          · rw [show gemini_get_exercise_recommendations true true (.ok text) jp lim =
                gemini_parse_response jp text lim from rfl]
            rw [gemini_parse_ok_iff jp text lim]
            constructor
            · rintro ⟨data, h⟩
              exact ⟨rfl, rfl, text, data, rfl, h⟩
            · rintro ⟨_, _, text2, data, htr, h⟩
              have htt : text2 = text := Except.ok.inj htr.symm
              subst htt
              exact ⟨data, h⟩
          · intro r hr
            exact gemini_parse_provider jp text lim r hr

/-- C10: the unparsable string is indeed skipped by the recency check, but
the call as a whole still raises: the candidate is recommended and the
factor rendering calls isoformat on the truthy string value, so the claim
that the call never raises on such input is false. -/
theorem c10_counterexample :
    recencyExclusion (some histC10) 0 exR = none ∧
    get_exercise_recommendations (.ok [exR]) [] (some histC10) [] none [] 5 0 =
      .error "AttributeError: str object has no attribute isoformat" := by
  exact ⟨rfl, rfl⟩

/-- C10 (amended): a recency exclusion is produced exactly for a
last_performed entry of the candidate that yields a timestamp (datetime,
or string whose ISO parse succeeds) with floored whole-day distance from
now below 2; a string entry that fails parsing is skipped silently by the
recency check; and whenever the call returns at all, no recommended
candidate had a truthy (nonempty) string history value — on such a value
the factor rendering raises instead of returning. -/
theorem c10_recency :
    (∀ (hist : Option WorkoutHistory) (now : Int) (ex : Exercise)
       (e : NotRecommendedExercise),
       recencyExclusion hist now ex = some e ↔
         ∃ w lp v t, hist = some w ∧ w.last_performed = some lp ∧
           lp.lookup ex.id = some v ∧ parsedTimestamp v = some t ∧
           (now - t).fdiv 86400 < 2 ∧
           e = ⟨ex.id, ex.name, daysAgoText ((now - t).fdiv 86400)⟩) ∧
    (∀ (w : WorkoutHistory) (lp : List (Nat × LastValue)) (now : Int)
       (ex : Exercise) (s : String),
       w.last_performed = some lp → lp.lookup ex.id = some (.str s none) →
       recencyExclusion (some w) now ex = none) ∧
    (∀ (exs : List Exercise) (avail : List Nat) (hist : Option WorkoutHistory)
       (wv : List (Nat × Int)) (mp : Option MovementPatterns)
       (restr : List InjuryRestriction) (limit : Nat) (now : Int)
       (r : RecommendationResponse),
       get_exercise_recommendations (.ok exs) avail hist wv mp restr limit now = .ok r →
       ∀ rec ∈ r.recommendations, ∀ s p,
         rawLastValue hist rec.exercise_id = some (.str s p) → s = "") := by
  refine ⟨?_, ?_, ?_⟩
  · intro hist now ex e
    constructor
    · intro h
      cases hist with
      | none => simp [recencyExclusion] at h
      | some w =>
        cases hlp : w.last_performed with
        | none => simp [recencyExclusion, hlp] at h
        | some lp =>
          cases hv : lp.lookup ex.id with
          | none => simp [recencyExclusion, hlp, hv] at h
          | some v =>
            cases ht : parsedTimestamp v with
            | none => simp [recencyExclusion, hlp, hv, ht] at h
            | some t =>
              by_cases hd : (now - t).fdiv 86400 < 2
              · simp [recencyExclusion, hlp, hv, ht, hd] at h
                exact ⟨w, lp, v, t, rfl, hlp, hv, ht, hd, h.symm⟩
              · simp [recencyExclusion, hlp, hv, ht, hd] at h
    · rintro ⟨w, lp, v, t, rfl, hlp, hv, ht, hd, rfl⟩
      simp [recencyExclusion, hlp, hv, ht, hd]
  · intro w lp now ex s hlp hv
    simp [recencyExclusion, hlp, hv, parsedTimestamp]
  · intro exs avail hist wv mp restr limit now r h rec hrec s p hraw
    obtain ⟨recs, hrecs, hr⟩ :=
      fallbackBody_dest exs avail hist wv mp restr limit now r h
    rw [hr] at hrec
    simp only at hrec
    obtain ⟨ex, _, hid, hsafe⟩ := buildRecs_sources hist wv mp _ _ _ hrecs rec hrec
    rw [hid] at hraw
    exact hsafe s p hraw

/-- C1: when the candidate read raises, the rule-based provider propagates
the exception instead of returning an empty well-formed result, and the
orchestrator surfaces that exception to its caller: the claim is false at
this input. -/
theorem c1_counterexample :
    get_exercise_recommendations (.error "database unavailable") [] none [] none [] 5 0 =
      .error "database unavailable" ∧
    (service_get_recommendations env0 ⟨[]⟩ 0 [1] [] none 5 true).1 =
      .error "database unavailable" := by
  exact ⟨rfl, rfl⟩

/-- C1 (amended): when the candidate-repository read succeeds and the
history carries no truthy string last_performed values, the orchestrator
returns a RecommendationResult for every request, after any combination of
remote-provider outcomes; and a successful read of zero candidates gives
the well-formed empty result.  A candidate-repository failure, however,
propagates as an exception rather than yielding an empty result. -/
theorem c1_never_raises :
    (∀ (env : Env) (st : CacheState) (now : Int) (mgIds eqIds : List Nat)
       (hist : Option WorkoutHistory) (limit : Nat) (use_cache : Bool)
       (exs : List Exercise),
       env.repo = .ok exs → histSafe hist →
       ∃ r st1 n,
         service_get_recommendations env st now mgIds eqIds hist limit use_cache =
           (.ok r, st1, n)) ∧
    (∀ (avail : List Nat) (hist : Option WorkoutHistory) (wv : List (Nat × Int))
       (mp : Option MovementPatterns) (restr : List InjuryRestriction)
       (limit : Nat) (now : Int),
       get_exercise_recommendations (.ok []) avail hist wv mp restr limit now =
         .ok { recommendations := []
               not_recommended := []
               total_candidates := 0
               filtered_by_equipment := 0
               provider := some "fallback" }) := by
  constructor
  · intro env st now mgIds eqIds hist limit use_cache exs hrepo hs
    exact service_ok env st now mgIds eqIds hist limit use_cache exs hrepo hs
  · intro avail hist wv mp restr limit now
    cases limit with
    | zero => rfl
    | succ n => rfl

/-- Lookup after an overwrite finds the fresh entry. -/
theorem cacheLookup_put (st : CacheState) (k : String)
    (v : RecommendationResponse × Int) :
    cacheLookup (cachePut st k v) k = some v := by
  simp [cacheLookup, cachePut, cacheErase, List.find?]

/-- The try block performs at least one provider invocation. -/
theorem tryBlock_count_pos (env : Env) (eqIds : List Nat)
    (hist : Option WorkoutHistory) (limit : Nat) (now : Int) :
    1 ≤ (tryBlock env eqIds hist limit now).2 := by
  unfold tryBlock
  cases initialOutcome env eqIds hist limit now with
  | error e => simp
  | ok resp =>
    simp only
    repeat' split
    all_goals simp

/-- Every walk of the provider chain invokes at least one provider. -/
theorem chain_count_pos (env : Env) (eqIds : List Nat)
    (hist : Option WorkoutHistory) (limit : Nat) (now : Int) :
    1 ≤ (chainResult env eqIds hist limit now).2 := by
  unfold chainResult
  cases h : tryBlock env eqIds hist limit now with
  | mk res n =>
    have hn : 1 ≤ n := by
      have := tryBlock_count_pos env eqIds hist limit now
      rw [h] at this
      exact this
    cases res with
    | ok r => simpa using hn
    | error e =>
      simp only
      omega

/-- C7: starting without an entry for the key, a first call that produces
a response writes it to the cache under the sorted-ids key, and a second
identical call within the TTL returns the identical response with zero
provider invocations and an unchanged state; in general every produced
(non-cache-hit) response is written to the cache, and a call finding only
a stale entry (age at least the TTL) walks the provider chain again. -/
theorem c7_cache_idempotence :
    (∀ (env : Env) (st0 : CacheState) (t1 t2 : Int) (mgIds eqIds : List Nat)
       (hist : Option WorkoutHistory) (limit : Nat)
       (r : RecommendationResponse) (st1 : CacheState) (n1 : Nat),
       cacheLookup st0 (cache_key mgIds eqIds) = none →
       service_get_recommendations env st0 t1 mgIds eqIds hist limit true =
         (.ok r, st1, n1) →
       t2 - t1 < cacheTTL →
       service_get_recommendations env st1 t2 mgIds eqIds hist limit true =
         (.ok r, st1, 0) ∧
       cacheLookup st1 (cache_key mgIds eqIds) = some (r, t1)) ∧
    (∀ (env : Env) (st : CacheState) (now : Int) (mgIds eqIds : List Nat)
       (hist : Option WorkoutHistory) (limit : Nat)
       (r : RecommendationResponse) (st1 : CacheState) (n : Nat),
       service_get_recommendations env st now mgIds eqIds hist limit true =
         (.ok r, st1, n) → 1 ≤ n →
       cacheLookup st1 (cache_key mgIds eqIds) = some (r, now)) ∧
    (∀ (env : Env) (st : CacheState) (now : Int) (mgIds eqIds : List Nat)
       (hist : Option WorkoutHistory) (limit : Nat)
       (r0 : RecommendationResponse) (t0 : Int),
       cacheLookup st (cache_key mgIds eqIds) = some (r0, t0) →
       cacheTTL ≤ now - t0 →
       1 ≤ (service_get_recommendations env st now mgIds eqIds hist limit true).2.2) := by
  refine ⟨?_, ?_, ?_⟩
  · intro env st0 t1 t2 mgIds eqIds hist limit r st1 n1 hnone hcall hfresh
    unfold service_get_recommendations at hcall
    rw [if_pos rfl] at hcall
    simp only [hnone] at hcall
    unfold serviceMiss at hcall
    cases hch : chainResult env eqIds hist limit t1 with
    | mk res n =>
      simp only [hch] at hcall
      cases res with
      | error e => simp at hcall
      | ok rc =>
        simp at hcall
        obtain ⟨h1, h2, h3⟩ := hcall
        subst h1
        subst h2
        refine ⟨?_, ?_⟩
        · unfold service_get_recommendations
          rw [if_pos rfl]
          simp [cacheLookup_put, hfresh]
        · exact cacheLookup_put _ _ _
  · intro env st now mgIds eqIds hist limit r st1 n hcall hn
    unfold service_get_recommendations at hcall
    rw [if_pos rfl] at hcall
    cases hlk : cacheLookup st (cache_key mgIds eqIds) with
    | some p =>
      simp only [hlk] at hcall
      by_cases hf : now - p.2 < cacheTTL
      · rw [if_pos hf] at hcall
        simp at hcall
        omega
      · rw [if_neg hf] at hcall
        unfold serviceMiss at hcall
        cases hch : chainResult env eqIds hist limit now with
        | mk res n2 =>
          simp only [hch] at hcall
          cases res with
          | error e => simp at hcall
          | ok rc =>
            simp at hcall
            obtain ⟨h1, h2, h3⟩ := hcall
            subst h1
            subst h2
            exact cacheLookup_put _ _ _
    | none =>
      simp only [hlk] at hcall
      unfold serviceMiss at hcall
      cases hch : chainResult env eqIds hist limit now with
      | mk res n2 =>
        simp only [hch] at hcall
        cases res with
        | error e => simp at hcall
        | ok rc =>
          simp at hcall
          obtain ⟨h1, h2, h3⟩ := hcall
          subst h1
          subst h2
          exact cacheLookup_put _ _ _
  · intro env st now mgIds eqIds hist limit r0 t0 hlk hstale
    unfold service_get_recommendations
    rw [if_pos rfl]
    simp only [hlk]
    have hcond : ¬ (now - (r0, t0).2 < cacheTTL) := by
      simp only
      omega
    rw [if_neg hcond]
    unfold serviceMiss
    have hpos := chain_count_pos env eqIds hist limit now
    cases hch : chainResult env eqIds hist limit now with
    | mk res n =>
      rw [hch] at hpos
      simp only [hch]
      cases res with
      | ok rc =>
        simp at hpos ⊢
        exact hpos
      | error e =>
        simp at hpos ⊢
        exact hpos

/-- An absent history is trivially safe. -/
theorem histSafe_none : histSafe none :=
  fun _ _ _ _ _ hw _ _ => nomatch hw

/-- C1 witness: with a working repository and no history, the service
returns a response even though both remotes fail, and an empty candidate
read yields the well-formed empty result. -/
theorem c1_witness :
    (∃ r st1 n,
      service_get_recommendations envOk ⟨[]⟩ 0 [1] [] none 5 true =
        (.ok r, st1, n)) ∧
    get_exercise_recommendations (.ok []) [] none [] none [] 5 0 =
      .ok { recommendations := []
            not_recommended := []
            total_candidates := 0
            filtered_by_equipment := 0
            provider := some "fallback" } :=
  ⟨c1_never_raises.1 envOk ⟨[]⟩ 0 [1] [] none 5 true [exA, exB] rfl histSafe_none,
   c1_never_raises.2 [] none [] none [] 5 0⟩

/-- C2 witness: the demo response carries provider, counts and the
computed exclusion list. -/
theorem c2_witness :
    respDemo.provider = some "fallback" ∧
    respDemo.total_candidates = [exA, exB].length ∧
    respDemo.filtered_by_equipment = filteredByEquipmentCount [] [7] [exA, exB] ∧
    respDemo.not_recommended =
      (cappedExclusions [] [7] [] none 0 [exA, exB]).filter
        (fun e =>
          !((respDemo.recommendations.map (fun x => x.exercise_id)).contains
              e.exercise_id)) :=
  c2_result_shape [exA, exB] [7] none [] none [] 5 0 respDemo rfl

/-- C3 witness: in the demo response the first recommendation and the
first exclusion carry different exercise ids. -/
theorem c3_witness :
    (respDemo.recommendations.headD
        ⟨0, "", ⟨0, 1⟩, "", ⟨"", none, false, false, "", false⟩⟩).exercise_id ≠
      (respDemo.not_recommended.headD ⟨0, "", ""⟩).exercise_id :=
  c3_disjoint [exA, exB] [7] none [] none [] 5 0 respDemo rfl
    (respDemo.not_recommended.headD ⟨0, "", ""⟩) (by decide)
    (respDemo.recommendations.headD
      ⟨0, "", ⟨0, 1⟩, "", ⟨"", none, false, false, "", false⟩⟩) (by decide)

/-- C5 witness: the bodyweight demo candidate passes with any equipment,
the barbell one is excluded with the equipment reason, and the demo
response carries the filter count. -/
theorem c5_witness :
    hasAvailableEquipment exA [7] = true ∧
    ((⟨2, "Bench Press", "Equipment not available: Barbell"⟩ :
        NotRecommendedExercise) ∈ (equipmentSplit [7] [exA, exB]).1) ∧
    respDemo.filtered_by_equipment = filteredByEquipmentCount [] [7] [exA, exB] :=
  ⟨c5_equipment_filter.2.1 exA [7] rfl,
   c5_equipment_filter.2.2.2.1 [7] [exA, exB] exB (by decide) (by decide),
   c5_equipment_filter.2.2.2.2 [exA, exB] [7] none [] none [] 5 0 respDemo rfl⟩

/-- C6 witness: scenario B, the overhead-press candidate is excluded with
the injury reason and does not survive into the equipment stage. -/
theorem c6_witness :
    ((⟨11, "Overhead Press", "May aggravate tennis elbow"⟩ :
        NotRecommendedExercise) ∈ rawExclusions [injRestr] [] [] none 0 [exOHP]) ∧
    exOHP ∉ survivors [injRestr] [] [exOHP] :=
  ⟨(c6_injury_filter.2 [injRestr] [] [] none 0 [exOHP] exOHP
      "May aggravate tennis elbow" (by decide) (by decide)).1,
   (c6_injury_filter.2 [injRestr] [] [] none 0 [exOHP] exOHP
      "May aggravate tennis elbow" (by decide) (by decide)).2.1⟩

/-- C7 witness: the first demo call populates the cache and a second call
ten seconds later returns the same response without invoking a provider. -/
theorem c7_witness :
    (service_get_recommendations envOk svc1.2.1 10 [1] [2] none 5 true =
      (.ok svcResp, svc1.2.1, 0) ∧
     cacheLookup svc1.2.1 (cache_key [1] [2]) = some (svcResp, 0)) ∧
    cacheLookup svc1.2.1 (cache_key [1] [2]) = some (svcResp, 0) :=
  ⟨c7_cache_idempotence.1 envOk ⟨[]⟩ 0 10 [1] [2] none 5 svcResp svc1.2.1
      svc1.2.2 rfl rfl (by decide),
   c7_cache_idempotence.2.1 envOk ⟨[]⟩ 0 [1] [2] none 5 svcResp svc1.2.1
      svc1.2.2 rfl (by decide)⟩

/-- C8 witness: the demo fallback run returns min(limit, survivors)
recommendations and the demo Claude parse respects its limit. -/
theorem c8_witness :
    (respDemo.recommendations.length =
        min 5 (survivors [] [7] [exA, exB]).length ∧
      respDemo.recommendations.length ≤ 5) ∧
    cpResp.recommendations.length ≤ 2 :=
  ⟨c8_limit.1 [exA, exB] [7] none [] none [] 5 0 respDemo rfl,
   c8_limit.2 jpDemo "```json X```" 2 cpResp rfl⟩

/-- C9 witness: both demo adapter runs succeed and carry their own
provider names. -/
theorem c9_witness :
    cpResp.provider = some "claude" ∧ gpResp.provider = some "gemini" :=
  ⟨(c9_remote_adapters.1 true true (.ok "```json X```") jpDemo 2).2 cpResp rfl,
   (c9_remote_adapters.2 true true (.ok "```json X```") jpDemo 2).2 gpResp rfl⟩

/-- C10 witness: the unparsable demo string produces no recency exclusion,
while a datetime within two days produces the insufficient-recovery one. -/
theorem c10_witness :
    recencyExclusion (some histC10) 5 exR = none ∧
    recencyExclusion (some histDt) 50000 exA =
      some ⟨1, "Push Up", "Performed 0 days ago - insufficient recovery"⟩ :=
  ⟨c10_recency.2.1 histC10 [(9, LastValue.str "not-a-date" none)] 5 exR
      "not-a-date" rfl rfl,
   (c10_recency.1 (some histDt) 50000 exA _).mpr
     ⟨histDt, [(1, LastValue.dt 0)], LastValue.dt 0, 0, rfl, rfl, rfl, rfl,
      by decide, rfl⟩⟩

/-- C3: the Claude adapter relays the recommendations and not_recommended
arrays of the reply without removing overlaps, and the service returns
such a response unmodified, so a produced result can carry the same
exercise id in both lists: the claim is false for remote-produced
results. -/
theorem c3_counterexample :
    claude_get_exercise_recommendations true true (.ok "Y") jpOverlap 5 =
      .ok overlapResp ∧
    overlapResp.recommendations.map (fun x => x.exercise_id) = [21] ∧
    overlapResp.not_recommended.map (fun e => e.exercise_id) = [21] := by
  exact ⟨rfl, rfl, rfl⟩
